import Mathlib

/-!
# Certificate workflow of `internal/domains/deploy.go`

A shallow embedding of the three functions of the file (`deploy`, `setDeployed`,
`saveCert`) together with the collaborators they call.

* Go pointers that are mutated in place (`record`, the record store behind
  `app.GetApp().Dao()`, the audit trail `history`) become explicit state that is
  passed along and returned.
* Every call that leaves the file (record store, clock, provider selectors,
  providers) is answered by an `Env`: one field per call site, so a run may see
  any combination of outcomes.  Each call is also appended to a trace of
  `Event`s, which is what the statements about "calls made" talk about.
* `error` is `Option Error` (`none` is Go's `nil`).
-/

set_option linter.dupNamespace false

namespace Certimate

/-! ## Go values -/

/-- A non-nil Go `error`.  `ext` is an error value produced by a collaborator,
`wrap` is the result of `fmt.Errorf` with a `%w` verb (the formatted text before
the cause, and the cause), `join` is the result of `errors.Join`. -/
inductive Error where
  | ext (msg : String)
  | wrap (text : String) (cause : Error)
  | join (errs : List Error)

mutual
/-- Decidable equality of errors (the type is nested, so it is written out). -/
def Error.decEq : (a b : Error) → Decidable (a = b)
  | .ext m, .ext n =>
    if h : m = n then isTrue (by rw [h]) else isFalse (by intro h1; cases h1; exact h rfl)
  | .wrap s c, .wrap t d =>
    if h : s = t then
      match Error.decEq c d with
      | isTrue hc => isTrue (by rw [h, hc])
      | isFalse hc => isFalse (by intro h1; cases h1; exact hc rfl)
    else isFalse (by intro h1; cases h1; exact h rfl)
  | .join as, .join bs =>
    match Error.decEqList as bs with
    | isTrue h => isTrue (by rw [h])
    | isFalse h => isFalse (by intro h1; cases h1; exact h rfl)
  | .ext _, .wrap _ _ => isFalse (by intro h; cases h)
  | .ext _, .join _ => isFalse (by intro h; cases h)
  | .wrap _ _, .ext _ => isFalse (by intro h; cases h)
  | .wrap _ _, .join _ => isFalse (by intro h; cases h)
  | .join _, .ext _ => isFalse (by intro h; cases h)
  | .join _, .wrap _ _ => isFalse (by intro h; cases h)
/-- Decidable equality of lists of errors. -/
def Error.decEqList : (as bs : List Error) → Decidable (as = bs)
  | [], [] => isTrue rfl
  | [], _ :: _ => isFalse (by intro h; cases h)
  | _ :: _, [] => isFalse (by intro h; cases h)
  | a :: as, b :: bs =>
    match Error.decEq a b with
    | isTrue h =>
      match Error.decEqList as bs with
      | isTrue hs => isTrue (by rw [h, hs])
      | isFalse hs => isFalse (by intro h1; cases h1; exact hs rfl)
    | isFalse h => isFalse (by intro h1; cases h1; exact h rfl)
end

instance : DecidableEq Error := Error.decEq

/-- The result of `errors.Join(errs...)`: `nil` when there is no error to join,
otherwise one error holding the list. -/
def errorsJoin (errs : List Error) : Option Error :=
  if errs.isEmpty then none else some (Error.join errs)

/-- A `time.Time`, as nanoseconds since the Unix epoch. -/
abbrev Time := Int

/-- A `time.Duration`: a signed 64-bit count of nanoseconds. -/
abbrev Duration := Int

namespace time

/-- The constant `time.Hour`, in nanoseconds. -/
def Hour : Duration := 3600 * 1000000000

/-- The smallest `Duration` (`-1 << 63`). -/
def minDuration : Duration := -(2 ^ 63)

/-- The largest `Duration` (`1<<63 - 1`). -/
def maxDuration : Duration := 2 ^ 63 - 1

/-- The zero `time.Time` (January 1, year 1, 00:00 UTC). -/
def zero : Time := -62135596800 * 1000000000

/-- `t.Sub(u)`: the difference, replaced by the largest or smallest `Duration`
when it does not fit in 64 bits. -/
def Sub (t u : Time) : Duration :=
  if t - u < minDuration then minDuration
  else if maxDuration < t - u then maxDuration
  else t - u

/-- `time.Until(t)` when `time.Now()` returns `now`. -/
def Until (now t : Time) : Duration := Sub t now

/-- `t.Add(d)`. -/
def Add (t : Time) (d : Duration) : Time := t + d

/-- The constant `time.Millisecond`, in nanoseconds. -/
def Millisecond : Duration := 1000000

end time

/-! ## Records and the record store -/

/-- A value held in a field of a `models.Record`.  The three constructors are
the three kinds of value this file reads and writes (`GetString`, `GetBool`,
`GetDateTime`; `Set` with a string, a bool or a `time.Time`). -/
inductive Value where
  | str (s : String)
  | bool (b : Bool)
  | time (t : Time)
  deriving DecidableEq, Repr

/-- A `models.Record`: its id and its field data, keyed by field name. -/
structure Record where
  Id : String
  data : List (String × Value)
  deriving DecidableEq, Repr

namespace Record

/-- `record.Get(key)`: the value stored under `key`, if any. -/
def Get (r : Record) (key : String) : Option Value := r.data.lookup key

/-- `record.Set(key, value)`: overwrite the value stored under `key`. -/
def Set (r : Record) (key : String) (v : Value) : Record :=
  { r with data := (key, v) :: r.data.filter (fun kv => kv.1 != key) }

/-- `record.GetString(key)`; the zero value `""` when the field holds no string. -/
def GetString (r : Record) (key : String) : String :=
  match r.Get key with
  | some (.str s) => s
  | _ => ""

/-- `record.GetBool(key)`; the zero value `false` when the field holds no bool. -/
def GetBool (r : Record) (key : String) : Bool :=
  match r.Get key with
  | some (.bool b) => b
  | _ => false

/-- `record.GetDateTime(key).Time()`; the zero time when the field holds no
time. -/
def GetDateTime (r : Record) (key : String) : Time :=
  match r.Get key with
  | some (.time t) => t
  | _ => time.zero

end Record

/-- A date as the record store keeps it.  Dates are written to the store in
the layout `2006-01-02 15:04:05.000Z`, so what is read back is the date cut
down to the millisecond. -/
def storedDate (t : Time) : Time := t - t % time.Millisecond

/-- A field value as the record store keeps it: dates lose what is below the
millisecond, strings and bools are kept as they are. -/
def Value.stored : Value → Value
  | .time t => .time (storedDate t)
  | v => v

/-- A record as the record store keeps it: the same id and the same fields,
each value in its stored form.  The record in memory is not changed by a
save. -/
def Record.stored (r : Record) : Record :=
  { r with data := r.data.map (fun kv => (kv.1, kv.2.stored)) }

/-- The record store behind `app.GetApp().Dao()`: the rows of the `domains`
collection. -/
structure Dao where
  domains : List Record
  deriving DecidableEq, Repr

namespace Dao

/-- The stored row with the given id. -/
def row (dao : Dao) (id : String) : Option Record :=
  dao.domains.find? (fun r => r.Id == id)

/-- `Dao().FindRecordById(collection, id)`.  `fault` is a failure of the store
itself; without one the call fails exactly when there is no such row. -/
def FindRecordById (fault : Option Error) (dao : Dao) (collection id : String) :
    Except Error Record :=
  match fault with
  | some err => .error err
  | none =>
    if collection = "domains" then
      match dao.row id with
      | some r => .ok r
      | none => .error (.ext "sql: no rows in result set")
    else .error (.ext "sql: no rows in result set")

/-- The store after `record` is written: the row with its id is replaced by
the stored form of the record, or that stored form is added when there is no
such row. -/
def put (dao : Dao) (record : Record) : Dao :=
  if dao.domains.any (fun r => r.Id == record.Id) then
    { domains := dao.domains.map (fun r => if r.Id == record.Id then record.stored else r) }
  else
    { domains := dao.domains ++ [record.stored] }

/-- `Dao().SaveRecord(record)`.  `fault` is a failure of the store; a failed
save leaves the store as it was, a successful one writes the stored form of the
record (dates at millisecond resolution). -/
def SaveRecord (fault : Option Error) (dao : Dao) (record : Record) : Dao × Option Error :=
  match fault with
  | some err => (dao, some err)
  | none => (dao.put record, none)

end Dao

/-! ## Providers -/

/-- Modelled from the spec: `applicant.Certificate`, the output of issuance
(section 6: CertUrl, CertStableUrl, PrivateKey, Certificate, IssuerCertificate,
Csr); its declaration is in package `applicant`. -/
structure Certificate where
  CertUrl : String
  CertStableUrl : String
  PrivateKey : String
  Certificate : String
  IssuerCertificate : String
  Csr : String
  deriving DecidableEq, Repr

/-- Modelled from the spec: the issuance capability returned by
`applicant.Get`, exposing `Apply() → (Certificate, error)`; the field is the
outcome of that call. -/
structure Applicant where
  Apply : Except Error Certificate

/-- Modelled from the spec: the deployment capability returned by
`deployer.Get`, exposing `Deploy(context) → error`; the field is the outcome of
that call. -/
structure Deployer where
  Deploy : Option Error

/-- What the collaborators answer during one run of `deploy`, one field per
call site of the source. -/
structure Env where
  /-- Store failure of `FindRecordById` (line 25). -/
  findFault : Option Error
  /-- The map of failures returned by `ExpandRecord` (line 37), in the order
  in which the `range` loop of line 40 visits it. -/
  expandErrs : Record → List String → List (String × Error)
  /-- Value of `time.Now()` inside `time.Until` at line 53. -/
  nowCheck : Time
  /-- Value of `time.Now()` inside `time.Until` at line 63. -/
  nowApply : Time
  /-- Value of `time.Now()` at line 126. -/
  nowSaveCert : Time
  /-- The selector `applicant.Get` (line 66). -/
  applicantGet : Record → Except Error Applicant
  /-- Store failure of the `SaveRecord` of `saveCert` (line 128). -/
  saveCertFault : Option Error
  /-- The selector `deployer.Get` (line 90). -/
  deployerGet : Record → Except Error Deployer
  /-- Store failure of the `SaveRecord` of `setDeployed` (line 113). -/
  setDeployedFault : Option Error

deriving instance DecidableEq for Except

/-- The nil-or-error part of a Go result pair. -/
def errOf {α : Type} : Except Error α → Option Error
  | .error e => some e
  | .ok _ => none

/-- The value part of a Go result pair. -/
def valOf {α : Type} : Except Error α → Option α
  | .error _ => none
  | .ok a => some a

/-- A call that leaves the file, with its arguments and what it returned. -/
inductive Event where
  | findRecordById (collection id : String) (err : Option Error)
  | expandRecord (record : Record) (names : List String) (errs : List (String × Error))
  | applicantGet (record : Record) (err : Option Error)
  | apply (cert : Option Certificate) (err : Option Error)
  | saveRecord (record : Record) (err : Option Error)
  | deployerGet (record : Record) (err : Option Error)
  | deploy (err : Option Error)
  deriving DecidableEq

/-- A line written through `app.GetApp().Logger()`. -/
structure LogLine where
  level : String
  msg : String
  err : Option Error
  deriving DecidableEq

/-! ## Audit trail -/

/-- The type `Phase` of the source (a string). -/
abbrev Phase := String

/-- The constant `checkPhase`. -/
def checkPhase : Phase := "check"

/-- The constant `applyPhase`. -/
def applyPhase : Phase := "apply"

/-- The constant `deployPhase`. -/
def deployPhase : Phase := "deploy"

/-- Modelled from the spec: an audit entry (section 3: phase tag, free-text
message, optional error, a "phase complete" flag); the type is declared next to
`NewHistory`, outside this file. -/
structure HistoryItem where
  phase : Phase
  message : String
  error : Option Error
  complete : Bool
  deriving DecidableEq

/-- Modelled from the spec: the audit trail of one run (sections 3 and 6): an
append-only ordered sequence of entries, and what has been handed to the sink by
`commit`. -/
structure History where
  entries : List HistoryItem
  committed : List (List HistoryItem)
  deriving DecidableEq

/-- Modelled from the spec: `NewHistory(record)`, an empty trail. -/
def NewHistory (_record : Record) : History := { entries := [], committed := [] }

namespace History

/-- Modelled from the spec: `history.record(phase, msg, err, pass...)` appends
one entry; the optional last argument is the "phase complete" flag. -/
def record (h : History) (phase : Phase) (msg : String) (err : Option Error)
    (pass : List Bool) : History :=
  { h with entries := h.entries ++ [⟨phase, msg, err, pass.headD false⟩] }

/-- Modelled from the spec: `history.commit()` persists the entries recorded so
far, as one write. -/
def commit (h : History) : History :=
  { h with committed := h.committed ++ [h.entries] }

end History

/-! ## The workflow -/

/-- Everything a run can change: the caller's `record` (a pointer in the
source, mutated by `Set`), the record store, the calls made so far, the log and
the audit trail. -/
structure State where
  record : Record
  dao : Dao
  trace : List Event
  logs : List LogLine
  history : History
  deriving DecidableEq

namespace State

/-- Append one call to the trace. -/
def call (s : State) (e : Event) : State := { s with trace := s.trace ++ [e] }

/-- The statement `history.record(phase, msg, err, pass...)`. -/
def audit (s : State) (phase : Phase) (msg : String) (err : Option Error)
    (pass : List Bool) : State :=
  { s with history := s.history.record phase msg err pass }

/-- The statement `app.GetApp().Logger().Error(msg, "err", err)`. -/
def logError (s : State) (msg : String) (err : Option Error) : State :=
  { s with logs := s.logs ++ [⟨"error", msg, err⟩] }

/-- The statement `app.GetApp().Logger().Info(msg)`. -/
def logInfo (s : State) (msg : String) : State :=
  { s with logs := s.logs ++ [⟨"info", msg, none⟩] }

end State

/-- The outcome of a function of the file that returns `error`: the state it
leaves and the value it returns. -/
structure Run where
  state : State
  ret : Option Error
  deriving DecidableEq

/-- The function `setDeployed` (lines 111-117), on the record `s.record`. -/
def setDeployed (fault : Option Error) (s : State) (deployed : Bool) : Run :=
  let record := s.record.Set "deployed" (.bool deployed)
  let saved := Dao.SaveRecord fault s.dao record
  let s := ({ s with record := record, dao := saved.1 }).call (.saveRecord record saved.2)
  match saved.2 with
  | some err => ⟨s, some err⟩
  | none => ⟨s, none⟩

/-- The function `saveCert` (lines 119-132), on the record `s.record`; `now` is
the value of `time.Now()` at line 126. -/
def saveCert (now : Time) (fault : Option Error) (s : State) (cert : Certificate) : Run :=
  let record := s.record.Set "certUrl" (.str cert.CertUrl)
  let record := record.Set "certStableUrl" (.str cert.CertStableUrl)
  let record := record.Set "privateKey" (.str cert.PrivateKey)
  let record := record.Set "certificate" (.str cert.Certificate)
  let record := record.Set "issuerCertificate" (.str cert.IssuerCertificate)
  let record := record.Set "csr" (.str cert.Csr)
  let record := record.Set "expiredAt" (.time (time.Add now (time.Hour * 24 * 90)))
  let saved := Dao.SaveRecord fault s.dao record
  let s := ({ s with record := record, dao := saved.1 }).call (.saveRecord record saved.2)
  match saved.2 with
  | some err => ⟨s, some err⟩
  | none => ⟨s, none⟩

/-- The deferred `history.commit()` followed by the return of `err`. -/
def leave (s : State) (err : Option Error) : Run :=
  ⟨{ s with history := s.history.commit }, err⟩

/-- The part of `deploy` after the renewal check (lines 88-108): the DEPLOY
phase. -/
def deployStage (env : Env) (currRecord : Record) (s : State) : Run :=
  let s := s.audit deployPhase "开始部署" none []
  let got := env.deployerGet currRecord
  let s := s.call (.deployerGet currRecord (errOf got))
  match got with
  | .error err =>
    let s := s.audit deployPhase "获取deployer失败" (some err) []
    let s := s.logError "获取deployer失败" (some err)
    leave s (some err)
  | .ok deployer =>
    let s := s.call (.deploy deployer.Deploy)
    match deployer.Deploy with
    | some err =>
      -- the value returned by setDeployed is dropped (line 98)
      let s := (setDeployed env.setDeployedFault s false).state
      let s := s.logError "部署失败" (some err)
      let s := s.audit deployPhase "部署失败" (some err) []
      leave s (some err)
    | none =>
      -- the value returned by setDeployed is dropped (line 104)
      let s := (setDeployed env.setDeployedFault s true).state
      let s := s.logInfo "部署成功"
      let s := s.audit deployPhase "部署成功" none [true]
      leave s none

/-- The part of `deploy` between the renewal check and DEPLOY (lines 60-86):
the APPLY phase, followed by `deployStage`. -/
def applyStage (env : Env) (currRecord : Record) (cert : String) (expiredAt : Time)
    (s : State) : Run :=
  let s := s.audit applyPhase "开始申请" none []
  if cert ≠ "" ∧ time.Until env.nowApply expiredAt > time.Hour * 24 then
    let s := s.audit applyPhase "证书在有效期内，跳过" none []
    let s := s.audit applyPhase "保存证书成功" none [true]
    deployStage env currRecord s
  else
    let got := env.applicantGet currRecord
    let s := s.call (.applicantGet currRecord (errOf got))
    match got with
    | .error err =>
      let s := s.audit applyPhase "获取applicant失败" (some err) []
      let s := s.logError "获取applicant失败" (some err)
      leave s (some err)
    | .ok applicant =>
      let s := s.call (.apply (valOf applicant.Apply) (errOf applicant.Apply))
      match applicant.Apply with
      | .error err =>
        let s := s.audit applyPhase "申请证书失败" (some err) []
        let s := s.logError "申请证书失败" (some err)
        leave s (some err)
      | .ok certificate =>
        let s := s.audit applyPhase "申请证书成功" none []
        let saved := saveCert env.nowSaveCert env.saveCertFault s certificate
        let s := saved.state
        match saved.ret with
        | some err =>
          let s := s.audit applyPhase "保存证书失败" (some err) []
          let s := s.logError "保存证书失败" (some err)
          leave s (some err)
        | none =>
          let s := s.audit applyPhase "保存证书成功" none [true]
          deployStage env currRecord s

/-- The function `deploy` (lines 23-109), run against the store `dao` on the
caller's `record`. -/
def deploy (env : Env) (dao : Dao) (record : Record) : Run :=
  let found := Dao.FindRecordById env.findFault dao "domains" record.Id
  let s : State :=
    { record := record, dao := dao,
      trace := [.findRecordById "domains" record.Id (errOf found)],
      logs := [], history := NewHistory record }
  let s := s.audit checkPhase "开始检查" none []
  match found with
  | .error err =>
    let s := s.logError "获取记录失败" (some err)
    let s := s.audit checkPhase "获取域名配置失败" (some err) []
    leave s (some err)
  | .ok currRecord =>
    -- past line 35 the variable err is nil
    let err : Option Error := none
    let s := s.audit checkPhase "获取记录成功" none []
    let errs := env.expandErrs currRecord ["access", "targetAccess"]
    let s := s.call (.expandRecord currRecord ["access", "targetAccess"] errs)
    if errs.length > 0 then
      let errList := errs.map (fun ne => Error.wrap ("展开记录失败," ++ ne.1 ++ ": ") ne.2)
      let err := errorsJoin errList
      let s := s.logError "展开记录失败" err
      let s := s.audit checkPhase "获取授权信息失败" err []
      leave s err
    else
      let s := s.audit checkPhase "获取授权信息成功" none []
      let cert := currRecord.GetString "certificate"
      let expiredAt := currRecord.GetDateTime "expiredAt"
      if cert ≠ "" ∧ time.Until env.nowCheck expiredAt > time.Hour * 24
          ∧ currRecord.GetBool "deployed" = true then
        let s := s.logInfo "证书在有效期内"
        let s := s.audit checkPhase "证书在有效期内且已部署，跳过" none [true]
        leave s err
      else
        let s := s.audit checkPhase "检查通过" none [true]
        applyStage env currRecord cert expiredAt s

/-! ## Vocabulary of the statements -/

namespace Event

/-- Calls to the issuance side: the selector `applicant.Get` and `Apply`. -/
def isIssuance : Event → Bool
  | .applicantGet _ _ => true
  | .apply _ _ => true
  | _ => false

/-- Calls to the deployment side: the selector `deployer.Get` and `Deploy`. -/
def isDeployment : Event → Bool
  | .deployerGet _ _ => true
  | .deploy _ => true
  | _ => false

/-- The call `Apply()`. -/
def isApply : Event → Bool
  | .apply _ _ => true
  | _ => false

/-- The call `Deploy(ctx)`. -/
def isDeploy : Event → Bool
  | .deploy _ => true
  | _ => false

/-- The call `SaveRecord`. -/
def isSave : Event → Bool
  | .saveRecord _ _ => true
  | _ => false

/-- The calls that act on the outside world: `Apply`, `Deploy` and
`SaveRecord` (the others only read or select). -/
def isEffect (e : Event) : Bool := e.isApply || e.isDeploy || e.isSave

/-- A `SaveRecord` call whose record has the deployed flag equal to `b`. -/
def savesFlag (b : Bool) : Event → Bool
  | .saveRecord r _ => r.GetBool "deployed" == b
  | _ => false

/-- The error a call returned, if it failed. -/
def failure : Event → Option Error
  | .findRecordById _ _ err => err
  | .expandRecord _ _ errs =>
    errorsJoin (errs.map (fun ne => Error.wrap ("展开记录失败," ++ ne.1 ++ ": ") ne.2))
  | .applicantGet _ err => err
  | .apply _ err => err
  | .saveRecord _ err => err
  | .deployerGet _ err => err
  | .deploy err => err

end Event

/-- The names of the record fields that hold the certificate material. -/
def certFields : List String :=
  ["certUrl", "certStableUrl", "privateKey", "certificate", "issuerCertificate", "csr"]

/-- The record carries the certificate material of `c`. -/
def Record.carries (r : Record) (c : Certificate) : Prop :=
  r.GetString "certUrl" = c.CertUrl ∧ r.GetString "certStableUrl" = c.CertStableUrl ∧
  r.GetString "privateKey" = c.PrivateKey ∧ r.GetString "certificate" = c.Certificate ∧
  r.GetString "issuerCertificate" = c.IssuerCertificate ∧ r.GetString "csr" = c.Csr

instance (r : Record) (c : Certificate) : Decidable (r.carries c) := by
  unfold Record.carries; infer_instance

/-! ## Concrete scenarios -/

/-- A clock reading: 2024-01-01 00:00:00 UTC. -/
def demoNow : Time := 1704067200 * 1000000000

/-- A certificate as an issuance provider returns it. -/
def demoCert : Certificate :=
  { CertUrl := "https://ca.test/cert/2", CertStableUrl := "https://ca.test/stable/2",
    PrivateKey := "KEY-2", Certificate := "CERT-2", IssuerCertificate := "ISSUER-2",
    Csr := "CSR-2" }

/-- A configuration that was never issued a certificate. -/
def blankRecord : Record :=
  { Id := "dom1", data := [("domain", .str "example.com"), ("deployed", .bool false)] }

/-- A configuration holding a certificate that expires at `expiredAt`. -/
def issuedRecord (expiredAt : Time) (deployed : Bool) : Record :=
  { Id := "dom1",
    data := [("domain", .str "example.com"),
      ("certUrl", .str "https://ca.test/cert/1"),
      ("certStableUrl", .str "https://ca.test/stable/1"),
      ("privateKey", .str "KEY-1"), ("certificate", .str "CERT-1"),
      ("issuerCertificate", .str "ISSUER-1"), ("csr", .str "CSR-1"),
      ("expiredAt", .time expiredAt), ("deployed", .bool deployed)] }

/-- Collaborators that all succeed, with a clock standing at `demoNow`. -/
def demoEnv : Env :=
  { findFault := none
    expandErrs := fun _ _ => []
    nowCheck := demoNow
    nowApply := demoNow
    nowSaveCert := demoNow
    applicantGet := fun _ => .ok { Apply := .ok demoCert }
    saveCertFault := none
    deployerGet := fun _ => .ok { Deploy := none }
    setDeployedFault := none }

/-- Ten days, the distance to expiry used in the scenarios of the spec. -/
def tenDays : Duration := time.Hour * 24 * 10

/-- Collaborators for which no deployment provider can be resolved. -/
def envNoDeployer : Env :=
  { demoEnv with deployerGet := fun _ => .error (.ext "unknown target") }

/-- Collaborators whose `Deploy` fails. -/
def envDeployFails : Env :=
  { demoEnv with deployerGet := fun _ => .ok { Deploy := some (.ext "target unreachable") } }

/-- Collaborators whose `Deploy` fails and whose store then refuses the save of
the deployed flag. -/
def envDeployFailsUnsaved : Env :=
  { envDeployFails with setDeployedFault := some (.ext "database is locked") }

/-- Collaborators that all succeed except the store, which refuses the save of
the deployed flag. -/
def envFlagUnsaved : Env :=
  { demoEnv with setDeployedFault := some (.ext "database is locked") }

/-- Collaborators whose issuance provider fails. -/
def envApplyFails : Env :=
  { demoEnv with applicantGet := fun _ => .ok { Apply := .error (.ext "acme: rate limited") } }

/-! ## Vocabulary for phases, joined errors and certificate fields -/

/-- The calls made before the first call to the deployment side, that is the
calls of the CHECK and APPLY phases. -/
def beforeDeploy (trace : List Event) : List Event :=
  trace.takeWhile (fun x => !x.isDeployment)

namespace Error

/-- The errors held by a joined error (what its `Unwrap() []error` returns). -/
def joined : Error → List Error
  | .join errs => errs
  | _ => []

/-- The error a `%w` error wraps (what `errors.Unwrap` returns). -/
def cause : Error → Option Error
  | .wrap _ c => some c
  | _ => none

/-- The text a `%w` error puts before its cause. -/
def text : Error → String
  | .wrap t _ => t
  | _ => ""

end Error

/-- The certificate fields of the record are all empty or all non-empty. -/
def Record.certUniform (r : Record) : Prop :=
  (∀ k ∈ certFields, r.GetString k = "") ∨ (∀ k ∈ certFields, r.GetString k ≠ "")

instance (r : Record) : Decidable r.certUniform := by
  unfold Record.certUniform; infer_instance

/-- The fields of the certificate are all empty or all non-empty. -/
def Certificate.uniform (c : Certimate.Certificate) : Prop :=
  (c.CertUrl = "" ∧ c.CertStableUrl = "" ∧ c.PrivateKey = "" ∧ c.Certificate = "" ∧
    c.IssuerCertificate = "" ∧ c.Csr = "") ∨
  (c.CertUrl ≠ "" ∧ c.CertStableUrl ≠ "" ∧ c.PrivateKey ≠ "" ∧ c.Certificate ≠ "" ∧
    c.IssuerCertificate ≠ "" ∧ c.Csr ≠ "")

instance (c : Certificate) : Decidable c.uniform := by
  unfold Certificate.uniform; infer_instance

/-- A certificate issued without a CSR of its own: every field is filled except
`Csr`. -/
def certNoCsr : Certificate := { demoCert with Csr := "" }

/-- Collaborators whose issuance provider returns `certNoCsr`. -/
def envNoCsr : Env :=
  { demoEnv with applicantGet := fun _ => .ok { Apply := .ok certNoCsr } }

/-- Collaborators for which both relations fail to expand. -/
def envExpandFails : Env :=
  { demoEnv with
    expandErrs := fun _ _ =>
      [("access", .ext "record not found"), ("targetAccess", .ext "record not found")] }

/-- Collaborators whose store refuses the save of the certificate. -/
def envCertUnsaved : Env :=
  { demoEnv with saveCertFault := some (.ext "database is locked") }

/-- An audit entry that closes its phase: tagged `phase` and flagged
complete. -/
def HistoryItem.closes (phase : Phase) (it : HistoryItem) : Bool :=
  it.phase == phase && it.complete

/-! # Theorems -/

/-! ## Auxiliary facts -/

/-- A saturated 64-bit difference exceeds 24 hours exactly when the true
difference does. -/
theorem sub_sat_gt_day (now t : Int) :
    (if t - now < -(2 ^ 63) then -(2 ^ 63) else if 2 ^ 63 - 1 < t - now then 2 ^ 63 - 1
      else t - now : Int) > 3600 * 1000000000 * 24 ↔ now + 24 * (3600 * 1000000000) < t := by
  norm_num
  split_ifs <;> constructor <;> intro h <;> omega

/-- The test `time.Until(t) > time.Hour*24` of lines 53 and 63 holds exactly
when `t` is more than 24 hours after the clock reading. -/
theorem until_gt_day (now t : Time) :
    time.Until now t > time.Hour * 24 ↔ now + 24 * time.Hour < t :=
  sub_sat_gt_day now t

/-- Dropping the entries of one key does not change the lookup of another. -/
theorem lookup_filter_ne (l : List (String × Value)) (k k1 : String) (h : k1 ≠ k) :
    (l.filter (fun kv => kv.1 != k)).lookup k1 = l.lookup k1 := by
  induction l with
  | nil => rfl
  | cons a l ih =>
    obtain ⟨x, v⟩ := a
    by_cases hx : x = k
    · subst hx
      have : (k1 == x) = false := by simpa using h
      simp [List.filter, List.lookup, this, ih]
    · have hx1 : (x != k) = true := by simpa using hx
      simp only [List.filter, hx1, List.lookup, ih]

/-- `Get` after `Set` on the same key returns the value set. -/
theorem Get_Set_self (r : Record) (k : String) (v : Value) : (r.Set k v).Get k = some v := by
  simp [Record.Set, Record.Get, List.lookup]

/-- `Set` leaves the other keys as they were. -/
theorem Get_Set_other (r : Record) (k k1 : String) (v : Value) (h : k1 ≠ k) :
    (r.Set k v).Get k1 = r.Get k1 := by
  have : (k1 == k) = false := by simpa using h
  simp [Record.Set, Record.Get, List.lookup, this, lookup_filter_ne _ _ _ h]

/-- `GetBool` after `Set` of a bool on the same key. -/
theorem GetBool_Set_self (r : Record) (k : String) (b : Bool) :
    (r.Set k (.bool b)).GetBool k = b := by
  simp [Record.GetBool, Get_Set_self]

/-- `GetString` after `Set` of a string on the same key. -/
theorem GetString_Set_self (r : Record) (k : String) (s : String) :
    (r.Set k (.str s)).GetString k = s := by
  simp [Record.GetString, Get_Set_self]

/-- `GetDateTime` after `Set` of a time on the same key. -/
theorem GetDateTime_Set_self (r : Record) (k : String) (t : Time) :
    (r.Set k (.time t)).GetDateTime k = t := by
  simp [Record.GetDateTime, Get_Set_self]

/-- `GetBool` is not affected by `Set` on another key. -/
theorem GetBool_Set_other (r : Record) (k k1 : String) (v : Value) (h : k1 ≠ k) :
    (r.Set k v).GetBool k1 = r.GetBool k1 := by
  simp [Record.GetBool, Get_Set_other _ _ _ _ h]

/-- `GetString` is not affected by `Set` on another key. -/
theorem GetString_Set_other (r : Record) (k k1 : String) (v : Value) (h : k1 ≠ k) :
    (r.Set k v).GetString k1 = r.GetString k1 := by
  simp [Record.GetString, Get_Set_other _ _ _ _ h]

/-- `GetDateTime` is not affected by `Set` on another key. -/
theorem GetDateTime_Set_other (r : Record) (k k1 : String) (v : Value) (h : k1 ≠ k) :
    (r.Set k v).GetDateTime k1 = r.GetDateTime k1 := by
  simp [Record.GetDateTime, Get_Set_other _ _ _ _ h]

/-- `Set` keeps the id of the record. -/
theorem Set_Id (r : Record) (k : String) (v : Value) : (r.Set k v).Id = r.Id := rfl

/-- Replacing the rows that have the id of `r` by `r` makes `r` the row found
under that id. -/
theorem find_map_replace (l : List Record) (r : Record)
    (h : l.any (fun x => x.Id == r.Id) = true) :
    (l.map (fun x => if x.Id == r.Id then r else x)).find? (fun x => x.Id == r.Id) = some r := by
  induction l with
  | nil => simp at h
  | cons a l ih =>
    by_cases ha : a.Id = r.Id
    · simp [List.find?, ha]
    · have ha1 : (a.Id == r.Id) = false := by simpa using ha
      rw [List.any_cons, ha1, Bool.false_or] at h
      simp only [List.map_cons, ha1, Bool.false_eq_true, if_false, List.find?]
      exact ih h

/-- Adding `r` to rows that do not have its id makes `r` the row found under
that id. -/
theorem find_append_new (l : List Record) (r : Record)
    (h : ¬ l.any (fun x => x.Id == r.Id) = true) :
    (l ++ [r]).find? (fun x => x.Id == r.Id) = some r := by
  induction l with
  | nil => simp [List.find?]
  | cons a l ih =>
    rw [List.any_cons, Bool.or_eq_true, not_or] at h
    have ha1 : (a.Id == r.Id) = false := by simpa using h.1
    simp only [List.cons_append, List.find?, ha1]
    exact ih h.2

/-- The stored form of a record has the id of the record. -/
theorem stored_Id (r : Record) : r.stored.Id = r.Id := rfl

/-- Looking a key up after putting every value in its stored form gives the
stored form of the value looked up. -/
theorem lookup_map_stored (l : List (String × Value)) (k : String) :
    (l.map (fun kv => (kv.1, kv.2.stored))).lookup k = (l.lookup k).map Value.stored := by
  induction l with
  | nil => rfl
  | cons a l ih =>
    obtain ⟨x, v⟩ := a
    by_cases hx : k = x
    · subst hx
      simp [List.lookup]
    · have hx1 : (k == x) = false := by simpa using hx
      simp only [List.map_cons, List.lookup, hx1, ih]

/-- The stored form of a record holds the stored form of each field. -/
theorem Get_stored (r : Record) (k : String) : r.stored.Get k = (r.Get k).map Value.stored := by
  simp only [Record.stored, Record.Get]
  exact lookup_map_stored r.data k

/-- The store keeps strings as they are. -/
theorem GetString_stored (r : Record) (k : String) : r.stored.GetString k = r.GetString k := by
  unfold Record.GetString
  rw [Get_stored]
  cases h : r.Get k with
  | none => rfl
  | some v => cases v <;> rfl

/-- The store keeps bools as they are. -/
theorem GetBool_stored (r : Record) (k : String) : r.stored.GetBool k = r.GetBool k := by
  unfold Record.GetBool
  rw [Get_stored]
  cases h : r.Get k with
  | none => rfl
  | some v => cases v <;> rfl

/-- Cutting a date down to the millisecond moves it back by less than a
millisecond. -/
theorem sub_emod_bounds (t : Int) : t - t % 1000000 ≤ t ∧ t - 1000000 < t - t % 1000000 := by
  have h1 : 0 ≤ t % 1000000 := Int.emod_nonneg t (by decide)
  have h2 : t % 1000000 < 1000000 := Int.emod_lt_of_pos t (by decide)
  constructor <;> omega

/-- A date read back from the store is the date saved or up to a millisecond
(exclusive) earlier. -/
theorem storedDate_bounds (t : Time) :
    storedDate t ≤ t ∧ t - time.Millisecond < storedDate t :=
  sub_emod_bounds t

/-- After a write of `r` the store holds the stored form of `r` under its
id. -/
theorem row_put (dao : Dao) (r : Record) : (dao.put r).row r.Id = some r.stored := by
  unfold Dao.put Dao.row
  split
  · rename_i h
    exact find_map_replace dao.domains r.stored h
  · rename_i h
    exact find_append_new dao.domains r.stored h

/-! ## The paths through the workflow -/

/-- The three ways through the DEPLOY phase: the provider cannot be resolved,
`Deploy` fails, `Deploy` succeeds. -/
theorem deployStage_cases (env : Env) (cur : Record) (s : State) :
    (∃ err, env.deployerGet cur = .error err ∧
      (deployStage env cur s).ret = some err ∧
      (deployStage env cur s).state.trace = s.trace ++ [.deployerGet cur (some err)] ∧
      (deployStage env cur s).state.record = s.record ∧
      (deployStage env cur s).state.dao = s.dao ∧
      (deployStage env cur s).state.history.entries = s.history.entries ++
        [⟨deployPhase, "开始部署", none, false⟩,
         ⟨deployPhase, "获取deployer失败", some err, false⟩]) ∨
    (∃ d err, env.deployerGet cur = .ok d ∧ d.Deploy = some err ∧
      (deployStage env cur s).ret = some err ∧
      (deployStage env cur s).state.trace = s.trace ++
        [.deployerGet cur none, .deploy (some err),
         .saveRecord (s.record.Set "deployed" (.bool false)) env.setDeployedFault] ∧
      (deployStage env cur s).state.record = s.record.Set "deployed" (.bool false) ∧
      (deployStage env cur s).state.dao =
        (Dao.SaveRecord env.setDeployedFault s.dao (s.record.Set "deployed" (.bool false))).1 ∧
      (deployStage env cur s).state.history.entries = s.history.entries ++
        [⟨deployPhase, "开始部署", none, false⟩,
         ⟨deployPhase, "部署失败", some err, false⟩]) ∨
    (∃ d, env.deployerGet cur = .ok d ∧ d.Deploy = none ∧
      (deployStage env cur s).ret = none ∧
      (deployStage env cur s).state.trace = s.trace ++
        [.deployerGet cur none, .deploy none,
         .saveRecord (s.record.Set "deployed" (.bool true)) env.setDeployedFault] ∧
      (deployStage env cur s).state.record = s.record.Set "deployed" (.bool true) ∧
      (deployStage env cur s).state.dao =
        (Dao.SaveRecord env.setDeployedFault s.dao (s.record.Set "deployed" (.bool true))).1 ∧
      (deployStage env cur s).state.history.entries = s.history.entries ++
        [⟨deployPhase, "开始部署", none, false⟩,
         ⟨deployPhase, "部署成功", none, true⟩]) := by
  cases hg : env.deployerGet cur with
  | error err =>
    left
    refine ⟨err, rfl, ?_⟩
    simp [deployStage, hg, leave, State.audit, State.call, State.logError, errOf,
      History.record, History.commit]
  | ok d =>
    right
    cases hd : d.Deploy with
    | some err =>
      left
      refine ⟨d, err, rfl, hd, ?_⟩
      cases hF : env.setDeployedFault <;>
      simp [deployStage, hg, hd, hF, setDeployed, Dao.SaveRecord, leave, State.audit, State.call,
        State.logError, errOf, History.record, History.commit]
    | none =>
      right
      refine ⟨d, rfl, hd, ?_⟩
      cases hF : env.setDeployedFault <;>
      simp [deployStage, hg, hd, hF, setDeployed, Dao.SaveRecord, leave, State.audit, State.call,
        State.logInfo, errOf, History.record, History.commit]

/-- The record `saveCert` builds from `record` and the certificate `c` at the
clock reading `now`. -/
theorem saveCert_record (now : Time) (fault : Option Error) (s : State) (c : Certificate) :
    (saveCert now fault s c).state.record =
      ((((((s.record.Set "certUrl" (.str c.CertUrl)).Set "certStableUrl"
        (.str c.CertStableUrl)).Set "privateKey" (.str c.PrivateKey)).Set "certificate"
        (.str c.Certificate)).Set "issuerCertificate" (.str c.IssuerCertificate)).Set "csr"
        (.str c.Csr)).Set "expiredAt" (.time (time.Add now (time.Hour * 24 * 90))) := by
  cases fault <;> simp [saveCert, Dao.SaveRecord, State.call]

/-- What `saveCert` returns and leaves behind. -/
theorem saveCert_run (now : Time) (fault : Option Error) (s : State) (c : Certificate) :
    (saveCert now fault s c).ret = fault ∧
    (saveCert now fault s c).state.trace =
      s.trace ++ [.saveRecord (saveCert now fault s c).state.record fault] ∧
    (saveCert now fault s c).state.dao =
      (Dao.SaveRecord fault s.dao (saveCert now fault s c).state.record).1 ∧
    (saveCert now fault s c).state.history = s.history ∧
    (saveCert now fault s c).state.logs = s.logs := by
  cases fault <;> simp [saveCert, Dao.SaveRecord, State.call]

/-- The five ways through the APPLY phase: issuance skipped (DEPLOY follows),
no issuance provider, `Apply` fails, the certificate save fails, or the
certificate is issued and saved (DEPLOY follows). -/
theorem applyStage_cases (env : Env) (cur : Record) (cert : String) (expiredAt : Time)
    (s : State) :
    (∃ s1 : State, (cert ≠ "" ∧ time.Until env.nowApply expiredAt > time.Hour * 24) ∧
      applyStage env cur cert expiredAt s = deployStage env cur s1 ∧
      s1.trace = s.trace ∧ s1.record = s.record ∧ s1.dao = s.dao ∧
      s1.history.entries = s.history.entries ++
        [⟨applyPhase, "开始申请", none, false⟩,
         ⟨applyPhase, "证书在有效期内，跳过", none, false⟩,
         ⟨applyPhase, "保存证书成功", none, true⟩]) ∨
    (∃ err, ¬ (cert ≠ "" ∧ time.Until env.nowApply expiredAt > time.Hour * 24) ∧
      env.applicantGet cur = .error err ∧
      (applyStage env cur cert expiredAt s).ret = some err ∧
      (applyStage env cur cert expiredAt s).state.trace =
        s.trace ++ [.applicantGet cur (some err)] ∧
      (applyStage env cur cert expiredAt s).state.record = s.record ∧
      (applyStage env cur cert expiredAt s).state.dao = s.dao ∧
      (applyStage env cur cert expiredAt s).state.history.entries = s.history.entries ++
        [⟨applyPhase, "开始申请", none, false⟩,
         ⟨applyPhase, "获取applicant失败", some err, false⟩]) ∨
    (∃ a err, ¬ (cert ≠ "" ∧ time.Until env.nowApply expiredAt > time.Hour * 24) ∧
      env.applicantGet cur = .ok a ∧ a.Apply = .error err ∧
      (applyStage env cur cert expiredAt s).ret = some err ∧
      (applyStage env cur cert expiredAt s).state.trace =
        s.trace ++ [.applicantGet cur none, .apply none (some err)] ∧
      (applyStage env cur cert expiredAt s).state.record = s.record ∧
      (applyStage env cur cert expiredAt s).state.dao = s.dao ∧
      (applyStage env cur cert expiredAt s).state.history.entries = s.history.entries ++
        [⟨applyPhase, "开始申请", none, false⟩,
         ⟨applyPhase, "申请证书失败", some err, false⟩]) ∨
    (∃ a c err, ¬ (cert ≠ "" ∧ time.Until env.nowApply expiredAt > time.Hour * 24) ∧
      env.applicantGet cur = .ok a ∧ a.Apply = .ok c ∧ env.saveCertFault = some err ∧
      (applyStage env cur cert expiredAt s).ret = some err ∧
      (applyStage env cur cert expiredAt s).state.trace =
        s.trace ++ [.applicantGet cur none, .apply (some c) none,
          .saveRecord (saveCert env.nowSaveCert (some err) s c).state.record (some err)] ∧
      (applyStage env cur cert expiredAt s).state.record =
        (saveCert env.nowSaveCert (some err) s c).state.record ∧
      (applyStage env cur cert expiredAt s).state.dao = s.dao ∧
      (applyStage env cur cert expiredAt s).state.history.entries = s.history.entries ++
        [⟨applyPhase, "开始申请", none, false⟩,
         ⟨applyPhase, "申请证书成功", none, false⟩,
         ⟨applyPhase, "保存证书失败", some err, false⟩]) ∨
    (∃ a c, ∃ s1 : State, ¬ (cert ≠ "" ∧ time.Until env.nowApply expiredAt > time.Hour * 24) ∧
      env.applicantGet cur = .ok a ∧ a.Apply = .ok c ∧ env.saveCertFault = none ∧
      applyStage env cur cert expiredAt s = deployStage env cur s1 ∧
      s1.trace = s.trace ++ [.applicantGet cur none, .apply (some c) none,
          .saveRecord (saveCert env.nowSaveCert none s c).state.record none] ∧
      s1.record = (saveCert env.nowSaveCert none s c).state.record ∧
      s1.dao = s.dao.put (saveCert env.nowSaveCert none s c).state.record ∧
      s1.history.entries = s.history.entries ++
        [⟨applyPhase, "开始申请", none, false⟩,
         ⟨applyPhase, "申请证书成功", none, false⟩,
         ⟨applyPhase, "保存证书成功", none, true⟩]) := by
  by_cases hk : cert ≠ "" ∧ time.Until env.nowApply expiredAt > time.Hour * 24
  · left
    apply Exists.intro
    refine ⟨hk, ?_, ?_⟩
    · rw [applyStage, if_pos hk]
    · simp [State.audit, History.record]
  · right
    cases hg : env.applicantGet cur with
    | error err =>
      left
      refine ⟨err, hk, rfl, ?_⟩
      simp [applyStage, hk, hg, leave, State.audit, State.call, State.logError, errOf,
        History.record, History.commit]
    | ok a =>
      right
      cases ha : a.Apply with
      | error err =>
        left
        refine ⟨a, err, hk, rfl, ha, ?_⟩
        simp [applyStage, hk, hg, ha, leave, State.audit, State.call, State.logError, errOf,
          valOf, History.record, History.commit]
      | ok c =>
        right
        cases hF : env.saveCertFault with
        | some err =>
          left
          refine ⟨a, c, err, hk, rfl, ha, rfl, ?_⟩
          simp [applyStage, hk, hg, ha, hF, saveCert, Dao.SaveRecord, leave, State.audit,
            State.call, State.logError, errOf, valOf, History.record, History.commit]
        | none =>
          right
          refine ⟨a, c, ?_⟩
          apply Exists.intro
          refine ⟨hk, rfl, ha, rfl, ?_, ?_⟩
          · simp only [applyStage, if_neg hk, hg, ha, hF, saveCert, Dao.SaveRecord]
            rfl
          · simp [saveCert, Dao.SaveRecord, State.audit, State.call, errOf, valOf,
              History.record]

/-- The four ways through the CHECK phase: the record cannot be loaded, a
relation cannot be expanded, the run is skipped, or APPLY follows. -/
theorem deploy_cases (env : Env) (dao : Dao) (record : Record) :
    (∃ err, Dao.FindRecordById env.findFault dao "domains" record.Id = .error err ∧
      (deploy env dao record).ret = some err ∧
      (deploy env dao record).state.trace = [.findRecordById "domains" record.Id (some err)] ∧
      (deploy env dao record).state.record = record ∧
      (deploy env dao record).state.dao = dao ∧
      (deploy env dao record).state.history.entries =
        [⟨checkPhase, "开始检查", none, false⟩,
         ⟨checkPhase, "获取域名配置失败", some err, false⟩]) ∨
    (∃ cur, Dao.FindRecordById env.findFault dao "domains" record.Id = .ok cur ∧
      env.expandErrs cur ["access", "targetAccess"] ≠ [] ∧
      (deploy env dao record).ret = errorsJoin
        ((env.expandErrs cur ["access", "targetAccess"]).map
          (fun ne => Error.wrap ("展开记录失败," ++ ne.1 ++ ": ") ne.2)) ∧
      (deploy env dao record).state.trace =
        [.findRecordById "domains" record.Id none,
         .expandRecord cur ["access", "targetAccess"]
           (env.expandErrs cur ["access", "targetAccess"])] ∧
      (deploy env dao record).state.record = record ∧
      (deploy env dao record).state.dao = dao ∧
      (deploy env dao record).state.history.entries =
        [⟨checkPhase, "开始检查", none, false⟩,
         ⟨checkPhase, "获取记录成功", none, false⟩,
         ⟨checkPhase, "获取授权信息失败", (deploy env dao record).ret, false⟩]) ∨
    (∃ cur, Dao.FindRecordById env.findFault dao "domains" record.Id = .ok cur ∧
      env.expandErrs cur ["access", "targetAccess"] = [] ∧
      (cur.GetString "certificate" ≠ "" ∧
        time.Until env.nowCheck (cur.GetDateTime "expiredAt") > time.Hour * 24 ∧
        cur.GetBool "deployed" = true) ∧
      (deploy env dao record).ret = none ∧
      (deploy env dao record).state.trace =
        [.findRecordById "domains" record.Id none,
         .expandRecord cur ["access", "targetAccess"] []] ∧
      (deploy env dao record).state.record = record ∧
      (deploy env dao record).state.dao = dao ∧
      (deploy env dao record).state.history.entries =
        [⟨checkPhase, "开始检查", none, false⟩,
         ⟨checkPhase, "获取记录成功", none, false⟩,
         ⟨checkPhase, "获取授权信息成功", none, false⟩,
         ⟨checkPhase, "证书在有效期内且已部署，跳过", none, true⟩]) ∨
    (∃ cur, ∃ s : State, Dao.FindRecordById env.findFault dao "domains" record.Id = .ok cur ∧
      env.expandErrs cur ["access", "targetAccess"] = [] ∧
      ¬ (cur.GetString "certificate" ≠ "" ∧
        time.Until env.nowCheck (cur.GetDateTime "expiredAt") > time.Hour * 24 ∧
        cur.GetBool "deployed" = true) ∧
      deploy env dao record =
        applyStage env cur (cur.GetString "certificate") (cur.GetDateTime "expiredAt") s ∧
      s.trace =
        [.findRecordById "domains" record.Id none,
         .expandRecord cur ["access", "targetAccess"] []] ∧
      s.record = record ∧ s.dao = dao ∧
      s.history.entries =
        [⟨checkPhase, "开始检查", none, false⟩,
         ⟨checkPhase, "获取记录成功", none, false⟩,
         ⟨checkPhase, "获取授权信息成功", none, false⟩,
         ⟨checkPhase, "检查通过", none, true⟩]) := by
  cases hf : Dao.FindRecordById env.findFault dao "domains" record.Id with
  | error err =>
    left
    refine ⟨err, rfl, ?_⟩
    simp [deploy, hf, leave, State.audit, State.logError, errOf, History.record,
      History.commit, NewHistory]
  | ok cur =>
    right
    by_cases hx : env.expandErrs cur ["access", "targetAccess"] = []
    · right
      by_cases hk : cur.GetString "certificate" ≠ "" ∧
          time.Until env.nowCheck (cur.GetDateTime "expiredAt") > time.Hour * 24 ∧
          cur.GetBool "deployed" = true
      · left
        refine ⟨cur, rfl, hx, hk, ?_⟩
        simp only [deploy, hf, hx, List.length_nil, gt_iff_lt, lt_self_iff_false, if_false,
          if_pos hk]
        simp [leave, State.audit, State.call, State.logInfo, errOf, History.record,
          History.commit, NewHistory]
      · right
        refine ⟨cur, ?_⟩
        apply Exists.intro
        refine ⟨rfl, hx, hk, ?_, ?_⟩
        · simp only [deploy, hf, hx, List.length_nil, gt_iff_lt, lt_self_iff_false, if_false,
            if_neg hk]
          rfl
        · simp [State.audit, State.call, errOf, History.record, NewHistory]
    · left
      have hl : (env.expandErrs cur ["access", "targetAccess"]).length > 0 :=
        List.length_pos.mpr hx
      refine ⟨cur, rfl, hx, ?_⟩
      simp only [deploy, hf, if_pos hl]
      simp [leave, State.audit, State.call, State.logError, errOf, History.record,
        History.commit, NewHistory]

/-! ## The renewal decision -/

/-- C1: when the record is loaded and expanded, and the loaded record has a
non-empty certificate, an expiry more than 24 hours after the clock reading of
the check, and `deployed = true`, the run returns nil, calls neither the
issuance side nor the deployment side, saves nothing, and leaves the caller's
record and the store as they were. -/
theorem deploy_fully_skips (env : Env) (dao : Dao) (record cur : Record)
    (hload : Dao.FindRecordById env.findFault dao "domains" record.Id = .ok cur)
    (hexpand : env.expandErrs cur ["access", "targetAccess"] = [])
    (hcert : cur.GetString "certificate" ≠ "")
    (hexp : env.nowCheck + 24 * time.Hour < cur.GetDateTime "expiredAt")
    (hdep : cur.GetBool "deployed" = true) :
    (deploy env dao record).ret = none ∧
    (deploy env dao record).state.trace =
      [.findRecordById "domains" record.Id none,
       .expandRecord cur ["access", "targetAccess"] []] ∧
    (∀ e ∈ (deploy env dao record).state.trace,
      e.isIssuance = false ∧ e.isDeployment = false ∧ e.isSave = false) ∧
    (deploy env dao record).state.dao = dao ∧
    (deploy env dao record).state.record = record := by
  have h := (until_gt_day env.nowCheck (cur.GetDateTime "expiredAt")).2 hexp
  simp [deploy, hload, hexpand, hcert, h, hdep, leave, State.audit, State.call, State.logInfo,
    errOf, Event.isIssuance, Event.isDeployment, Event.isSave]

/-- C1, on the scenario of the spec: certificate present, expiry ten days
ahead, `deployed = true`. -/
theorem deploy_fully_skips_witness :
    (deploy demoEnv ⟨[issuedRecord (demoNow + tenDays) true]⟩
        (issuedRecord (demoNow + tenDays) true)).ret = none ∧
    (deploy demoEnv ⟨[issuedRecord (demoNow + tenDays) true]⟩
        (issuedRecord (demoNow + tenDays) true)).state.trace =
      [.findRecordById "domains" (issuedRecord (demoNow + tenDays) true).Id none,
       .expandRecord (issuedRecord (demoNow + tenDays) true) ["access", "targetAccess"] []] ∧
    (∀ e ∈ (deploy demoEnv ⟨[issuedRecord (demoNow + tenDays) true]⟩
        (issuedRecord (demoNow + tenDays) true)).state.trace,
      e.isIssuance = false ∧ e.isDeployment = false ∧ e.isSave = false) ∧
    (deploy demoEnv ⟨[issuedRecord (demoNow + tenDays) true]⟩
        (issuedRecord (demoNow + tenDays) true)).state.dao
      = ⟨[issuedRecord (demoNow + tenDays) true]⟩ ∧
    (deploy demoEnv ⟨[issuedRecord (demoNow + tenDays) true]⟩
        (issuedRecord (demoNow + tenDays) true)).state.record
      = issuedRecord (demoNow + tenDays) true :=
  deploy_fully_skips demoEnv ⟨[issuedRecord (demoNow + tenDays) true]⟩
    (issuedRecord (demoNow + tenDays) true) (issuedRecord (demoNow + tenDays) true)
    (by decide) (by decide) (by decide) (by decide) (by decide)

/-- C2, as stated, fails: with the record loaded and expanded, a valid
certificate and `deployed = false`, a run in which `deployer.Get` cannot resolve
a provider never calls `Deploy`. -/
theorem deploy_skip_issuance_counterexample :
    Dao.FindRecordById envNoDeployer.findFault ⟨[issuedRecord (demoNow + tenDays) false]⟩
        "domains" (issuedRecord (demoNow + tenDays) false).Id
      = .ok (issuedRecord (demoNow + tenDays) false) ∧
    envNoDeployer.expandErrs (issuedRecord (demoNow + tenDays) false)
        ["access", "targetAccess"] = [] ∧
    (issuedRecord (demoNow + tenDays) false).GetString "certificate" ≠ "" ∧
    envNoDeployer.nowCheck + 24 * time.Hour
      < (issuedRecord (demoNow + tenDays) false).GetDateTime "expiredAt" ∧
    envNoDeployer.nowApply + 24 * time.Hour
      < (issuedRecord (demoNow + tenDays) false).GetDateTime "expiredAt" ∧
    (issuedRecord (demoNow + tenDays) false).GetBool "deployed" = false ∧
    ((deploy envNoDeployer ⟨[issuedRecord (demoNow + tenDays) false]⟩
        (issuedRecord (demoNow + tenDays) false)).state.trace.filter Event.isDeploy).length
      = 0 := by
  decide

/-- C2, amended: when the record is loaded and expanded, the loaded record has
a non-empty certificate, an expiry more than 24 hours after the clock reading of
the APPLY re-check and `deployed = false`, and `deployer.Get` resolves a
provider, then the issuance side is never called and no certificate is saved,
`Deploy` is called exactly once, and the only save is the one of the deployed
flag; if `Deploy` succeeds that save carries `deployed = true` and the run
returns nil (and the store holds that record, in its stored form, when the save
succeeds). -/
theorem deploy_skips_issuance (env : Env) (dao : Dao) (record cur : Record) (d : Deployer)
    (hload : Dao.FindRecordById env.findFault dao "domains" record.Id = .ok cur)
    (hexpand : env.expandErrs cur ["access", "targetAccess"] = [])
    (hcert : cur.GetString "certificate" ≠ "")
    (hexp : env.nowApply + 24 * time.Hour < cur.GetDateTime "expiredAt")
    (hdep : cur.GetBool "deployed" = false)
    (hget : env.deployerGet cur = .ok d) :
    (∀ e ∈ (deploy env dao record).state.trace, e.isIssuance = false) ∧
    (deploy env dao record).state.trace =
      [.findRecordById "domains" record.Id none,
       .expandRecord cur ["access", "targetAccess"] [],
       .deployerGet cur none,
       .deploy d.Deploy,
       .saveRecord (record.Set "deployed" (.bool d.Deploy.isNone)) env.setDeployedFault] ∧
    ((deploy env dao record).state.trace.filter Event.isDeploy).length = 1 ∧
    (d.Deploy = none →
      (deploy env dao record).ret = none ∧
      (deploy env dao record).state.record = record.Set "deployed" (.bool true) ∧
      (deploy env dao record).state.record.GetBool "deployed" = true ∧
      (env.setDeployedFault = none →
        (deploy env dao record).state.dao.row record.Id
          = some (record.Set "deployed" (.bool true)).stored)) := by
  have h := (until_gt_day env.nowApply (cur.GetDateTime "expiredAt")).2 hexp
  have hput := row_put dao (record.Set "deployed" (.bool true))
  rw [Set_Id] at hput
  cases hD : d.Deploy <;>
  simp [deploy, applyStage, deployStage, setDeployed, Dao.SaveRecord, hload, hexpand, hcert, h,
    hdep, hget, hD, leave, State.audit, State.call, State.logInfo, State.logError, errOf,
    Event.isIssuance, Event.isDeploy, GetBool_Set_self] <;>
  cases hF : env.setDeployedFault <;>
  simp [hput, List.filter, Event.isDeploy, GetBool_Set_self]

/-- C2 amended, on the scenario of the spec: certificate present, expiry ten
days ahead, `deployed = false`, every collaborator succeeding: `Deploy` is
called once, the run returns nil and the flag becomes true. -/
theorem deploy_skips_issuance_witness :
    (issuedRecord (demoNow + tenDays) false).GetBool "deployed" = false ∧
    ((deploy demoEnv ⟨[issuedRecord (demoNow + tenDays) false]⟩
        (issuedRecord (demoNow + tenDays) false)).state.trace.filter Event.isDeploy).length
      = 1 ∧
    (deploy demoEnv ⟨[issuedRecord (demoNow + tenDays) false]⟩
        (issuedRecord (demoNow + tenDays) false)).ret = none ∧
    (deploy demoEnv ⟨[issuedRecord (demoNow + tenDays) false]⟩
        (issuedRecord (demoNow + tenDays) false)).state.record.GetBool "deployed" = true :=
  ⟨by decide,
   (deploy_skips_issuance demoEnv ⟨[issuedRecord (demoNow + tenDays) false]⟩
      (issuedRecord (demoNow + tenDays) false) (issuedRecord (demoNow + tenDays) false)
      { Deploy := none } (by decide) (by decide) (by decide) (by decide) (by decide)
      rfl).2.2.1,
   ((deploy_skips_issuance demoEnv ⟨[issuedRecord (demoNow + tenDays) false]⟩
      (issuedRecord (demoNow + tenDays) false) (issuedRecord (demoNow + tenDays) false)
      { Deploy := none } (by decide) (by decide) (by decide) (by decide) (by decide)
      rfl).2.2.2 rfl).1,
   ((deploy_skips_issuance demoEnv ⟨[issuedRecord (demoNow + tenDays) false]⟩
      (issuedRecord (demoNow + tenDays) false) (issuedRecord (demoNow + tenDays) false)
      { Deploy := none } (by decide) (by decide) (by decide) (by decide) (by decide)
      rfl).2.2.2 rfl).2.2.1⟩

/-- C3: when every external call succeeds and the loaded record has an empty
certificate, or an expiry at most 24 hours after the clock readings of the two
policy checks (24 hours exactly included; whatever `deployed` is), the calls of
the run are, in order: load, expand, `applicant.Get`, `Apply`, one save of the
record carrying the issued certificate with expiry = now + 90 days,
`deployer.Get`, `Deploy`, one save of that record with `deployed = true`; the
run returns nil and both the caller's record and the store (which holds the
stored form of that record) end with `deployed = true`. -/
theorem deploy_issues_and_deploys (env : Env) (dao : Dao) (record cur : Record)
    (a : Applicant) (c : Certificate) (d : Deployer)
    (hload : Dao.FindRecordById env.findFault dao "domains" record.Id = .ok cur)
    (hexpand : env.expandErrs cur ["access", "targetAccess"] = [])
    (hpolicy : cur.GetString "certificate" = "" ∨
      (cur.GetDateTime "expiredAt" ≤ env.nowCheck + 24 * time.Hour ∧
       cur.GetDateTime "expiredAt" ≤ env.nowApply + 24 * time.Hour))
    (haget : env.applicantGet cur = .ok a) (happly : a.Apply = .ok c)
    (hsave : env.saveCertFault = none)
    (hdget : env.deployerGet cur = .ok d) (hdeploy : d.Deploy = none)
    (hset : env.setDeployedFault = none) :
    ∃ r1 r2 : Record,
      (deploy env dao record).state.trace =
        [.findRecordById "domains" record.Id none,
         .expandRecord cur ["access", "targetAccess"] [],
         .applicantGet cur none,
         .apply (some c) none,
         .saveRecord r1 none,
         .deployerGet cur none,
         .deploy none,
         .saveRecord r2 none] ∧
      (deploy env dao record).state.trace.filter Event.isEffect =
        [.apply (some c) none, .saveRecord r1 none, .deploy none, .saveRecord r2 none] ∧
      r1.carries c ∧
      r1.GetDateTime "expiredAt" = env.nowSaveCert + 90 * (24 * time.Hour) ∧
      r2 = r1.Set "deployed" (.bool true) ∧
      r2.GetBool "deployed" = true ∧
      (deploy env dao record).ret = none ∧
      (deploy env dao record).state.record = r2 ∧
      (deploy env dao record).state.dao.row record.Id = some r2.stored ∧
      r2.stored.GetBool "deployed" = true := by
  have h1 : ¬ (cur.GetString "certificate" ≠ "" ∧
      time.Until env.nowCheck (cur.GetDateTime "expiredAt") > time.Hour * 24 ∧
      cur.GetBool "deployed" = true) := by
    rintro ⟨hc, hu, _⟩
    rw [until_gt_day] at hu
    rcases hpolicy with h | h
    · exact hc h
    · exact absurd hu (not_lt.mpr h.1)
  have h2 : ¬ (cur.GetString "certificate" ≠ "" ∧
      time.Until env.nowApply (cur.GetDateTime "expiredAt") > time.Hour * 24) := by
    rintro ⟨hc, hu⟩
    rw [until_gt_day] at hu
    rcases hpolicy with h | h
    · exact hc h
    · exact absurd hu (not_lt.mpr h.2)
  refine ⟨(saveCert env.nowSaveCert none ⟨record, dao, [], [], NewHistory record⟩ c).state.record,
    ((saveCert env.nowSaveCert none ⟨record, dao, [], [], NewHistory record⟩ c).state.record).Set
      "deployed" (.bool true), ?_, ?_, ?_, ?_, rfl, GetBool_Set_self _ _ _, ?_, ?_, ?_,
    by rw [GetBool_stored]; exact GetBool_Set_self _ _ _⟩
  · simp only [deploy, hload, hexpand, List.length_nil, gt_iff_lt, lt_self_iff_false, if_false,
      h1, applyStage, h2, haget, happly, saveCert, hsave, Dao.SaveRecord, deployStage, hdget,
      hdeploy, setDeployed, hset, leave, State.audit, State.call, State.logInfo, errOf, valOf,
      List.cons_append, List.nil_append]
  · simp only [deploy, hload, hexpand, List.length_nil, gt_iff_lt, lt_self_iff_false, if_false,
      h1, applyStage, h2, haget, happly, saveCert, hsave, Dao.SaveRecord, deployStage, hdget,
      hdeploy, setDeployed, hset, leave, State.audit, State.call, State.logInfo, errOf, valOf,
      List.cons_append, List.nil_append]
    rfl
  · simp only [saveCert, Dao.SaveRecord, State.call, Record.carries]
    refine ⟨?_, ?_, ?_, ?_, ?_, ?_⟩ <;>
    simp [GetString_Set_self, GetString_Set_other]
  · simp only [saveCert, Dao.SaveRecord, State.call, GetDateTime_Set_self, time.Add]
    ring
  · simp only [deploy, hload, hexpand, List.length_nil, gt_iff_lt, lt_self_iff_false, if_false,
      h1, applyStage, h2, haget, happly, saveCert, hsave, Dao.SaveRecord, deployStage, hdget,
      hdeploy, setDeployed, hset, leave, State.audit, State.call, State.logInfo, errOf, valOf]
  · simp only [deploy, hload, hexpand, List.length_nil, gt_iff_lt, lt_self_iff_false, if_false,
      h1, applyStage, h2, haget, happly, saveCert, hsave, Dao.SaveRecord, deployStage, hdget,
      hdeploy, setDeployed, hset, leave, State.audit, State.call, State.logInfo, errOf, valOf]
  · simp only [deploy, hload, hexpand, List.length_nil, gt_iff_lt, lt_self_iff_false, if_false,
      h1, applyStage, h2, haget, happly, saveCert, hsave, Dao.SaveRecord, deployStage, hdget,
      hdeploy, setDeployed, hset, leave, State.audit, State.call, State.logInfo, errOf, valOf]
    have := row_put
      (dao.put ((((((((record.Set "certUrl" (.str c.CertUrl)).Set "certStableUrl"
        (.str c.CertStableUrl)).Set "privateKey" (.str c.PrivateKey)).Set "certificate"
        (.str c.Certificate)).Set "issuerCertificate" (.str c.IssuerCertificate)).Set "csr"
        (.str c.Csr)).Set "expiredAt" (.time (time.Add env.nowSaveCert (time.Hour * 24 * 90))))))
      (((((((((record.Set "certUrl" (.str c.CertUrl)).Set "certStableUrl"
        (.str c.CertStableUrl)).Set "privateKey" (.str c.PrivateKey)).Set "certificate"
        (.str c.Certificate)).Set "issuerCertificate" (.str c.IssuerCertificate)).Set "csr"
        (.str c.Csr)).Set "expiredAt" (.time (time.Add env.nowSaveCert (time.Hour * 24 * 90))))).Set
        "deployed" (.bool true))
    simpa only [Set_Id] using this

/-- C3, on the scenario of the spec (certificate empty, expiry zero,
`deployed = false`, every collaborator succeeding): the run returns nil and
leaves `deployed = true`. -/
theorem deploy_issues_and_deploys_witness :
    blankRecord.GetString "certificate" = "" ∧
    (deploy demoEnv ⟨[blankRecord]⟩ blankRecord).ret = none ∧
    (deploy demoEnv ⟨[blankRecord]⟩ blankRecord).state.record.GetBool "deployed" = true := by
  obtain ⟨r1, r2, -, -, -, -, h5, h6, h7, h8, -⟩ :=
    deploy_issues_and_deploys demoEnv ⟨[blankRecord]⟩ blankRecord blankRecord
      { Apply := .ok demoCert } demoCert { Deploy := none }
      (by decide) (by decide) (Or.inl (by decide)) rfl rfl rfl rfl rfl rfl
  exact ⟨by decide, h7, by rw [h8]; exact h6⟩

/-! ## Failures -/

/-- What the DEPLOY phase does when the trace it extends holds no `Deploy`
call and the run's trace holds a failed one. -/
theorem deployStage_failure (env : Env) (cur : Record) (s : State) (e : Error)
    (hs : ∀ ev ∈ s.trace, ev.isDeploy = false)
    (h : Event.deploy (some e) ∈ (deployStage env cur s).state.trace) :
    (deployStage env cur s).ret = some e ∧
    (deployStage env cur s).state.record = s.record.Set "deployed" (.bool false) ∧
    (deployStage env cur s).state.trace =
      (s.trace ++ [.deployerGet cur none]) ++
        [.deploy (some e),
         .saveRecord (s.record.Set "deployed" (.bool false)) env.setDeployedFault] ∧
    (deployStage env cur s).state.dao =
      (Dao.SaveRecord env.setDeployedFault s.dao (s.record.Set "deployed" (.bool false))).1 := by
  have hnot : Event.deploy (some e) ∉ s.trace := fun hm => by
    have := hs _ hm
    simp [Event.isDeploy] at this
  rcases deployStage_cases env cur s with
    ⟨err, -, -, ht, -⟩ | ⟨d, err, -, -, hr, ht, hrec, hdao, -⟩ | ⟨d, -, -, -, ht, -⟩
  · rw [ht] at h
    simp [hnot] at h
  · rw [ht] at h
    have he : e = err := by simpa [hnot] using h
    subst he
    rw [hr, ht, hrec, hdao]
    simp
  · rw [ht] at h
    simp [hnot] at h

/-- C4, as stated, fails: a renewal run on a record whose flag is true saves
the new certificate with `deployed = true` before `Deploy` is called, and when
the save of the flag fails after the failed `Deploy` the store keeps
`deployed = true`. -/
theorem deploy_failure_counterexample :
    Event.deploy (some (.ext "target unreachable")) ∈
      (deploy envDeployFailsUnsaved ⟨[issuedRecord (demoNow + time.Hour) true]⟩
        (issuedRecord (demoNow + time.Hour) true)).state.trace ∧
    ((deploy envDeployFailsUnsaved ⟨[issuedRecord (demoNow + time.Hour) true]⟩
        (issuedRecord (demoNow + time.Hour) true)).state.trace.filter
          (Event.savesFlag true)).length = 1 ∧
    ((deploy envDeployFailsUnsaved ⟨[issuedRecord (demoNow + time.Hour) true]⟩
        (issuedRecord (demoNow + time.Hour) true)).state.dao.row "dom1").map
          (fun r => r.GetBool "deployed") = some true := by
  decide

/-- C4, amended: in every run in which `Deploy` fails with `e`, whatever the
deployed flag was before, the run returns `e`; the failed `Deploy` is the only
`Deploy` call and exactly one call follows it, a `SaveRecord` of the caller's
record with `deployed = false` (so no save with `deployed = true` is made after
the failure); when that save succeeds the store holds this record, in its
stored form, with `deployed = false`. -/
theorem deploy_failure_clears_flag (env : Env) (dao : Dao) (record : Record) (e : Error)
    (h : Event.deploy (some e) ∈ (deploy env dao record).state.trace) :
    (deploy env dao record).ret = some e ∧
    (deploy env dao record).state.record.GetBool "deployed" = false ∧
    (∃ pre : List Event,
      (deploy env dao record).state.trace =
        pre ++ [.deploy (some e),
                .saveRecord (deploy env dao record).state.record env.setDeployedFault] ∧
      ∀ ev ∈ pre, ev.isDeploy = false) ∧
    (env.setDeployedFault = none →
      (deploy env dao record).state.dao.row record.Id
        = some (deploy env dao record).state.record.stored ∧
      (deploy env dao record).state.record.stored.GetBool "deployed" = false) := by
  have key : ∀ (cur : Record) (s : State), s.record.Id = record.Id →
      (∀ ev ∈ s.trace, ev.isDeploy = false) →
      Event.deploy (some e) ∈ (deployStage env cur s).state.trace →
      (deployStage env cur s).ret = some e ∧
      (deployStage env cur s).state.record.GetBool "deployed" = false ∧
      (∃ pre : List Event,
        (deployStage env cur s).state.trace =
          pre ++ [.deploy (some e),
                  .saveRecord (deployStage env cur s).state.record env.setDeployedFault] ∧
        ∀ ev ∈ pre, ev.isDeploy = false) ∧
      (env.setDeployedFault = none →
        (deployStage env cur s).state.dao.row record.Id
          = some (deployStage env cur s).state.record.stored ∧
        (deployStage env cur s).state.record.stored.GetBool "deployed" = false) := by
    intro cur s hid hs hm
    obtain ⟨hr, hrec, ht, hdao⟩ := deployStage_failure env cur s e hs hm
    refine ⟨hr, ?_, ⟨s.trace ++ [.deployerGet cur none], ?_, ?_⟩, ?_⟩
    · rw [hrec, GetBool_Set_self]
    · rw [ht, hrec]
    · intro ev hev
      rcases List.mem_append.mp hev with h1 | h1
      · exact hs ev h1
      · simp only [List.mem_singleton] at h1
        subst h1
        rfl
    · intro hF
      rw [hdao, hrec, hF]
      have := row_put s.dao (s.record.Set "deployed" (.bool false))
      rw [Set_Id, hid] at this
      exact ⟨this, by rw [GetBool_stored, GetBool_Set_self]⟩
  rcases deploy_cases env dao record with
    ⟨err, -, -, ht, -⟩ | ⟨cur, -, -, -, ht, -⟩ | ⟨cur, -, -, -, -, ht, -⟩ |
    ⟨cur, s, -, -, -, hrun, hst, hsr, hsd, -⟩
  · rw [ht] at h
    simp at h
  · rw [ht] at h
    simp at h
  · rw [ht] at h
    simp at h
  · rw [hrun] at h ⊢
    rcases applyStage_cases env cur (cur.GetString "certificate") (cur.GetDateTime "expiredAt") s
      with ⟨s1, -, hrun1, ht1, hrec1, -⟩ | ⟨err, -, -, -, ht, -⟩ |
        ⟨a, err, -, -, -, -, ht, -⟩ | ⟨a, c, err, -, -, -, -, -, ht, -⟩ |
        ⟨a, c, s1, -, -, -, -, hrun1, ht1, hrec1, -⟩
    · rw [hrun1] at h ⊢
      refine key cur s1 (by rw [hrec1, hsr]) ?_ h
      intro ev hev
      rw [ht1, hst] at hev
      simp only [List.mem_cons, List.mem_singleton, List.not_mem_nil, or_false] at hev
      rcases hev with rfl | rfl <;> rfl
    · rw [ht, hst] at h
      simp at h
    · rw [ht, hst] at h
      simp at h
    · rw [ht, hst] at h
      simp at h
    · rw [hrun1] at h ⊢
      refine key cur s1 (by rw [hrec1, saveCert_record]; simp only [Set_Id]; rw [hsr]) ?_ h
      intro ev hev
      rw [ht1, hst] at hev
      simp only [List.mem_append, List.mem_cons, List.mem_singleton, List.not_mem_nil,
        or_false] at hev
      rcases hev with (rfl | rfl) | rfl | rfl | rfl <;> rfl

/-- C4 amended, on a run whose `Deploy` fails. -/
theorem deploy_failure_clears_flag_witness :
    Event.deploy (some (.ext "target unreachable")) ∈
      (deploy envDeployFails ⟨[blankRecord]⟩ blankRecord).state.trace ∧
    (deploy envDeployFails ⟨[blankRecord]⟩ blankRecord).ret
      = some (.ext "target unreachable") ∧
    (deploy envDeployFails ⟨[blankRecord]⟩ blankRecord).state.record.GetBool "deployed"
      = false :=
  ⟨by decide,
   (deploy_failure_clears_flag envDeployFails ⟨[blankRecord]⟩ blankRecord
      (.ext "target unreachable") (by decide)).1,
   (deploy_failure_clears_flag envDeployFails ⟨[blankRecord]⟩ blankRecord
      (.ext "target unreachable") (by decide)).2.1⟩

/-- C5: in every run in which a call to the issuance side (`applicant.Get` or
`Apply`) fails with `e`, the run returns `e`, the deployment side is neither
resolved nor invoked, nothing is saved, and both the caller's record and the
store are exactly what they were before the run (so certificate fields, expiry
and deployed flag are unchanged). -/
theorem deploy_issuance_failure (env : Env) (dao : Dao) (record : Record) (ev : Event)
    (e : Error)
    (hev : ev ∈ (deploy env dao record).state.trace)
    (hiss : ev.isIssuance = true) (hfail : ev.failure = some e) :
    (deploy env dao record).ret = some e ∧
    (∀ x ∈ (deploy env dao record).state.trace, x.isDeployment = false ∧ x.isSave = false) ∧
    (deploy env dao record).state.record = record ∧
    (deploy env dao record).state.dao = dao := by
  rcases deploy_cases env dao record with
    ⟨err, -, -, ht, -⟩ | ⟨cur, -, -, -, ht, -⟩ | ⟨cur, -, -, -, -, ht, -⟩ |
    ⟨cur, s, -, -, -, hrun, hst, hsr, hsd, -⟩
  · rw [ht] at hev
    simp only [List.mem_singleton] at hev
    subst hev
    simp [Event.isIssuance] at hiss
  · rw [ht] at hev
    simp only [List.mem_cons, List.mem_singleton, List.not_mem_nil, or_false] at hev
    rcases hev with rfl | rfl <;> simp [Event.isIssuance] at hiss
  · rw [ht] at hev
    simp only [List.mem_cons, List.mem_singleton, List.not_mem_nil, or_false] at hev
    rcases hev with rfl | rfl <;> simp [Event.isIssuance] at hiss
  · rw [hrun] at hev ⊢
    rcases applyStage_cases env cur (cur.GetString "certificate") (cur.GetDateTime "expiredAt") s
      with ⟨s1, -, hrun1, ht1, -⟩ | ⟨err, -, -, hr, ht, hrec, hdao, -⟩ |
        ⟨a, err, -, -, -, hr, ht, hrec, hdao, -⟩ | ⟨a, c, err, -, -, -, -, -, ht, -⟩ |
        ⟨a, c, s1, -, -, -, -, hrun1, ht1, -⟩
    · rw [hrun1] at hev
      exfalso
      rcases deployStage_cases env cur s1 with
        ⟨err, -, -, ht, -⟩ | ⟨d, err, -, -, -, ht, -⟩ | ⟨d, -, -, -, ht, -⟩ <;>
      · rw [ht, ht1, hst] at hev
        simp only [List.mem_append, List.mem_cons, List.mem_singleton, List.not_mem_nil,
          or_false] at hev
        rcases hev with (rfl | rfl) | rfl | rfl | rfl <;> simp [Event.isIssuance] at hiss
    · rw [ht, hst] at hev
      simp only [List.mem_append, List.mem_cons, List.mem_singleton, List.not_mem_nil,
        or_false] at hev
      rw [hr, ht, hrec, hdao, hst, hsr, hsd]
      rcases hev with (rfl | rfl) | rfl
      · simp [Event.isIssuance] at hiss
      · simp [Event.isIssuance] at hiss
      · simp only [Event.failure, Option.some.injEq] at hfail
        subst hfail
        simp [Event.isDeployment, Event.isSave]
    · rw [ht, hst] at hev
      simp only [List.mem_append, List.mem_cons, List.mem_singleton, List.not_mem_nil,
        or_false] at hev
      rw [hr, ht, hrec, hdao, hst, hsr, hsd]
      rcases hev with (rfl | rfl) | rfl | rfl
      · simp [Event.isIssuance] at hiss
      · simp [Event.isIssuance] at hiss
      · simp [Event.failure] at hfail
      · simp only [Event.failure, Option.some.injEq] at hfail
        subst hfail
        simp [Event.isDeployment, Event.isSave]
    · rw [ht, hst] at hev
      simp only [List.mem_append, List.mem_cons, List.mem_singleton, List.not_mem_nil,
        or_false] at hev
      exfalso
      rcases hev with (rfl | rfl) | rfl | rfl | rfl
      · simp [Event.isIssuance] at hiss
      · simp [Event.isIssuance] at hiss
      · simp [Event.failure] at hfail
      · simp [Event.failure] at hfail
      · simp [Event.isIssuance] at hiss
    · rw [hrun1] at hev
      exfalso
      rcases deployStage_cases env cur s1 with
        ⟨err, -, -, ht, -⟩ | ⟨d, err, -, -, -, ht, -⟩ | ⟨d, -, -, -, ht, -⟩ <;>
      · rw [ht, ht1, hst] at hev
        simp only [List.mem_append, List.mem_cons, List.mem_singleton, List.not_mem_nil,
          or_false] at hev
        rcases hev with ((rfl | rfl) | rfl | rfl | rfl) | hev
        · simp [Event.isIssuance] at hiss
        · simp [Event.isIssuance] at hiss
        · simp [Event.failure] at hfail
        · simp [Event.failure] at hfail
        · simp [Event.isIssuance] at hiss
        · rcases hev with rfl | rfl | rfl <;> simp [Event.isIssuance] at hiss

/-- C5, on a run whose `Apply` fails. -/
theorem deploy_issuance_failure_witness :
    Event.apply none (some (.ext "acme: rate limited")) ∈
      (deploy envApplyFails ⟨[blankRecord]⟩ blankRecord).state.trace ∧
    (deploy envApplyFails ⟨[blankRecord]⟩ blankRecord).ret
      = some (.ext "acme: rate limited") ∧
    (deploy envApplyFails ⟨[blankRecord]⟩ blankRecord).state.dao = ⟨[blankRecord]⟩ :=
  ⟨by decide,
   (deploy_issuance_failure envApplyFails ⟨[blankRecord]⟩ blankRecord
      (.apply none (some (.ext "acme: rate limited"))) (.ext "acme: rate limited")
      (by decide) rfl rfl).1,
   (deploy_issuance_failure envApplyFails ⟨[blankRecord]⟩ blankRecord
      (.apply none (some (.ext "acme: rate limited"))) (.ext "acme: rate limited")
      (by decide) rfl rfl).2.2.2⟩

/-! ## Where the code departs from the specification -/

/-- C6: a run that fails in the DEPLOY phase because `deployer.Get` cannot
resolve a provider returns the error, recorded under the deploy phase, without
any save of `deployed = false`: on a renewal of a record whose flag is true the
caller's record and the store both keep `deployed = true`. -/
theorem deploy_resolution_failure_keeps_flag :
    (deploy envNoDeployer ⟨[issuedRecord (demoNow + time.Hour) true]⟩
        (issuedRecord (demoNow + time.Hour) true)).ret = some (.ext "unknown target") ∧
    (⟨deployPhase, "获取deployer失败", some (.ext "unknown target"), false⟩ : HistoryItem) ∈
      (deploy envNoDeployer ⟨[issuedRecord (demoNow + time.Hour) true]⟩
        (issuedRecord (demoNow + time.Hour) true)).state.history.entries ∧
    ((deploy envNoDeployer ⟨[issuedRecord (demoNow + time.Hour) true]⟩
        (issuedRecord (demoNow + time.Hour) true)).state.trace.filter
          (Event.savesFlag false)).length = 0 ∧
    (deploy envNoDeployer ⟨[issuedRecord (demoNow + time.Hour) true]⟩
        (issuedRecord (demoNow + time.Hour) true)).state.record.GetBool "deployed" = true ∧
    ((deploy envNoDeployer ⟨[issuedRecord (demoNow + time.Hour) true]⟩
        (issuedRecord (demoNow + time.Hour) true)).state.dao.row "dom1").map
          (fun r => r.GetBool "deployed") = some true := by
  decide

/-- C7: when the save of the deployed flag fails, the run still returns nil and
no audit entry carries an error: the value returned by `setDeployed` is
dropped. -/
theorem deploy_swallows_flag_save_error :
    Event.saveRecord
        (deploy envFlagUnsaved ⟨[blankRecord]⟩ blankRecord).state.record
        (some (.ext "database is locked")) ∈
      (deploy envFlagUnsaved ⟨[blankRecord]⟩ blankRecord).state.trace ∧
    (deploy envFlagUnsaved ⟨[blankRecord]⟩ blankRecord).ret = none ∧
    (deploy envFlagUnsaved ⟨[blankRecord]⟩ blankRecord).state.history.entries.all
      (fun it => it.error.isNone) = true ∧
    (deploy envFlagUnsaved ⟨[blankRecord]⟩ blankRecord).state.history.entries.getLast?
      = some ⟨deployPhase, "部署成功", none, true⟩ ∧
    ((deploy envFlagUnsaved ⟨[blankRecord]⟩ blankRecord).state.dao.row "dom1").map
      (fun r => r.GetBool "deployed") = some false := by
  decide

/-- C8: after a successful issuance and save, `deployer.Get` is handed the
record loaded at CHECK, which does not carry the certificate `Apply` returned;
the issued certificate is only in the caller's record and in the store. -/
theorem deploy_hands_stale_record_to_deployer :
    Event.apply (some demoCert) none ∈
      (deploy demoEnv ⟨[blankRecord]⟩ blankRecord).state.trace ∧
    (deploy demoEnv ⟨[blankRecord]⟩ blankRecord).state.trace.filter Event.isDeployment
      = [.deployerGet blankRecord none, .deploy none] ∧
    ¬ blankRecord.carries demoCert ∧
    blankRecord.GetString "certificate" = "" ∧
    (deploy demoEnv ⟨[blankRecord]⟩ blankRecord).state.record.carries demoCert ∧
    ((deploy demoEnv ⟨[blankRecord]⟩ blankRecord).state.dao.row "dom1").map
      (fun r => r.GetString "certificate") = some "CERT-2" := by
  decide

/-- C9: a run that replaces the certificate and then fails to resolve the
deployment provider makes no `Deploy` call and leaves the store with the new
certificate and `deployed = true`; the next run, with every collaborator
working, then skips and never deploys that certificate. -/
theorem deploy_leaves_flag_on_undeployed_cert :
    ((⟨[issuedRecord (demoNow - time.Hour) true]⟩ : Dao).row "dom1").map
      (fun r => r.GetString "certificate") = some "CERT-1" ∧
    ((deploy envNoDeployer ⟨[issuedRecord (demoNow - time.Hour) true]⟩
        (issuedRecord (demoNow - time.Hour) true)).state.dao.row "dom1").map
      (fun r => (r.GetString "certificate", r.GetBool "deployed")) = some ("CERT-2", true) ∧
    (deploy envNoDeployer ⟨[issuedRecord (demoNow - time.Hour) true]⟩
        (issuedRecord (demoNow - time.Hour) true)).state.trace.filter Event.isDeploy = [] ∧
    (deploy envNoDeployer ⟨[issuedRecord (demoNow - time.Hour) true]⟩
        (issuedRecord (demoNow - time.Hour) true)).ret = some (.ext "unknown target") ∧
    (deploy demoEnv
        (deploy envNoDeployer ⟨[issuedRecord (demoNow - time.Hour) true]⟩
          (issuedRecord (demoNow - time.Hour) true)).state.dao
        (deploy envNoDeployer ⟨[issuedRecord (demoNow - time.Hour) true]⟩
          (issuedRecord (demoNow - time.Hour) true)).state.record).state.trace.filter
      Event.isDeployment = [] := by
  decide

/-! ## `saveCert` -/

/-- C10: for every record, certificate and clock reading, `saveCert` leaves a
record that carries the six certificate fields of the certificate and whose
`expiredAt` is exactly the clock reading plus 90 times 24 hours; every other
field (`deployed` among them) and the id are unchanged; exactly one `SaveRecord`
call is made, of that record; and the value returned is the outcome of that
call, so an error is returned if and only if the save fails. -/
theorem saveCert_effect (now : Time) (fault : Option Error) (s : State) (cert : Certificate) :
    (saveCert now fault s cert).state.record.carries cert ∧
    (saveCert now fault s cert).state.record.GetDateTime "expiredAt"
      = now + 90 * (24 * time.Hour) ∧
    (∀ key, key ∉ certFields → key ≠ "expiredAt" →
      (saveCert now fault s cert).state.record.Get key = s.record.Get key) ∧
    (saveCert now fault s cert).state.record.GetBool "deployed" = s.record.GetBool "deployed" ∧
    (saveCert now fault s cert).state.record.Id = s.record.Id ∧
    (saveCert now fault s cert).state.trace
      = s.trace ++ [.saveRecord (saveCert now fault s cert).state.record fault] ∧
    (saveCert now fault s cert).ret = fault ∧
    ((saveCert now fault s cert).ret ≠ none ↔ fault ≠ none) := by
  obtain ⟨hret, htrace, -, -, -⟩ := saveCert_run now fault s cert
  refine ⟨?_, ?_, ?_, ?_, ?_, htrace, hret, by rw [hret]⟩
  · rw [saveCert_record]
    refine ⟨?_, ?_, ?_, ?_, ?_, ?_⟩ <;> simp [GetString_Set_self, GetString_Set_other]
  · rw [saveCert_record, GetDateTime_Set_self]
    simp only [time.Add]
    ring
  · intro key hk hne
    simp only [certFields, List.mem_cons, List.mem_singleton, List.not_mem_nil, or_false,
      not_or] at hk
    obtain ⟨h1, h2, h3, h4, h5, h6⟩ := hk
    rw [saveCert_record, Get_Set_other _ _ _ _ hne, Get_Set_other _ _ _ _ h6,
      Get_Set_other _ _ _ _ h5, Get_Set_other _ _ _ _ h4, Get_Set_other _ _ _ _ h3,
      Get_Set_other _ _ _ _ h2, Get_Set_other _ _ _ _ h1]
  · rw [saveCert_record]
    simp [GetBool_Set_other]
  · rw [saveCert_record]
    rfl

/-- C10, on a record that holds an older certificate and `deployed = true`. -/
theorem saveCert_effect_witness :
    (saveCert demoNow none
        ⟨issuedRecord demoNow true, ⟨[issuedRecord demoNow true]⟩, [], [], NewHistory blankRecord⟩
        demoCert).state.record.GetDateTime "expiredAt" = demoNow + 90 * (24 * time.Hour) ∧
    (saveCert demoNow none
        ⟨issuedRecord demoNow true, ⟨[issuedRecord demoNow true]⟩, [], [], NewHistory blankRecord⟩
        demoCert).state.record.GetBool "deployed" = true :=
  ⟨(saveCert_effect demoNow none
      ⟨issuedRecord demoNow true, ⟨[issuedRecord demoNow true]⟩, [], [], NewHistory blankRecord⟩
      demoCert).2.1,
   (saveCert_effect demoNow none
      ⟨issuedRecord demoNow true, ⟨[issuedRecord demoNow true]⟩, [], [], NewHistory blankRecord⟩
      demoCert).2.2.2.1⟩

/-! ## Errors before DEPLOY -/

/-- C11: in every run in which a call of the CHECK or APPLY phase (the load,
the expansion, `applicant.Get`, `Apply` or the certificate save: the calls made
before any call to the deployment side) fails with `e`, the run returns `e`,
neither `deployer.Get` nor `Deploy` is called, the deployed flag of the caller's
record and the whole store are what they were, and no audit entry is tagged
deploy; when the failed call is the certificate save, the trail ends with the
apply entry of the successful issuance followed by the apply entry carrying
`e`. -/
theorem deploy_early_failure (env : Env) (dao : Dao) (record : Record) (ev : Event)
    (e : Error)
    (hev : ev ∈ beforeDeploy (deploy env dao record).state.trace)
    (hfail : ev.failure = some e) :
    (deploy env dao record).ret = some e ∧
    (∀ x ∈ (deploy env dao record).state.trace, x.isDeployment = false) ∧
    (deploy env dao record).state.record.Get "deployed" = record.Get "deployed" ∧
    (deploy env dao record).state.dao = dao ∧
    (∀ it ∈ (deploy env dao record).state.history.entries, it.phase ≠ deployPhase) ∧
    (ev.isSave = true →
      ∃ init, (deploy env dao record).state.history.entries = init ++
        [⟨applyPhase, "申请证书成功", none, false⟩,
         ⟨applyPhase, "保存证书失败", some e, false⟩]) := by
  have hjoin : errorsJoin [] = none := rfl
  rcases deploy_cases env dao record with
    ⟨err, -, hr, ht, hrec, hdao, hent⟩ | ⟨cur, -, -, hr, ht, hrec, hdao, hent⟩ |
    ⟨cur, -, -, -, -, ht, -⟩ | ⟨cur, s, -, -, -, hrun, hst, hsr, hsd, hsh⟩
  · rw [ht] at hev
    simp only [beforeDeploy, List.takeWhile, Event.isDeployment, Bool.not_false,
      List.mem_singleton] at hev
    subst hev
    simp only [Event.failure, Option.some.injEq] at hfail
    subst hfail
    rw [hr, ht, hrec, hdao, hent]
    simp [Event.isDeployment, Event.isSave, checkPhase, deployPhase]
  · rw [ht] at hev
    simp only [beforeDeploy, List.takeWhile, Event.isDeployment, Bool.not_false,
      List.mem_cons, List.mem_singleton, List.not_mem_nil, or_false] at hev
    rcases hev with rfl | rfl
    · simp [Event.failure] at hfail
    · simp only [Event.failure] at hfail
      rw [hent, hr, ht, hrec, hdao, hfail]
      simp [Event.isDeployment, Event.isSave, checkPhase, deployPhase]
  · rw [ht] at hev
    simp only [beforeDeploy, List.takeWhile, Event.isDeployment, Bool.not_false,
      List.mem_cons, List.mem_singleton, List.not_mem_nil, or_false] at hev
    rcases hev with rfl | rfl
    · simp [Event.failure] at hfail
    · simp [Event.failure, hjoin] at hfail
  · rw [hrun] at hev ⊢
    rcases applyStage_cases env cur (cur.GetString "certificate") (cur.GetDateTime "expiredAt") s
      with ⟨s1, -, hrun1, ht1, -⟩ | ⟨err, -, -, hr, ht, hrec, hdao, hent⟩ |
        ⟨a, err, -, -, -, hr, ht, hrec, hdao, hent⟩ |
        ⟨a, c, err, -, -, -, -, hr, ht, hrec, hdao, hent⟩ |
        ⟨a, c, s1, -, -, -, -, hrun1, ht1, -⟩
    · rw [hrun1] at hev
      exfalso
      rcases deployStage_cases env cur s1 with
        ⟨err, -, -, ht, -⟩ | ⟨d, err, -, -, -, ht, -⟩ | ⟨d, -, -, -, ht, -⟩ <;>
      · rw [ht, ht1, hst] at hev
        simp only [beforeDeploy, List.cons_append, List.nil_append, List.takeWhile,
          Event.isDeployment, Bool.not_false, Bool.not_true, List.mem_cons, List.mem_singleton,
          List.not_mem_nil, or_false] at hev
        rcases hev with rfl | rfl
        · simp [Event.failure] at hfail
        · simp [Event.failure, hjoin] at hfail
    · rw [ht, hst] at hev
      simp only [beforeDeploy, List.cons_append, List.nil_append, List.takeWhile,
        Event.isDeployment, Bool.not_false, List.mem_cons, List.mem_singleton,
        List.not_mem_nil, or_false] at hev
      rcases hev with rfl | rfl | rfl
      · simp [Event.failure] at hfail
      · simp [Event.failure, hjoin] at hfail
      · simp only [Event.failure, Option.some.injEq] at hfail
        subst hfail
        rw [hr, ht, hrec, hdao, hent, hst, hsr, hsd, hsh]
        simp [Event.isDeployment, Event.isSave, checkPhase, applyPhase, deployPhase]
    · rw [ht, hst] at hev
      simp only [beforeDeploy, List.cons_append, List.nil_append, List.takeWhile,
        Event.isDeployment, Bool.not_false, List.mem_cons, List.mem_singleton,
        List.not_mem_nil, or_false] at hev
      rcases hev with rfl | rfl | rfl | rfl
      · simp [Event.failure] at hfail
      · simp [Event.failure, hjoin] at hfail
      · simp [Event.failure] at hfail
      · simp only [Event.failure, Option.some.injEq] at hfail
        subst hfail
        rw [hr, ht, hrec, hdao, hent, hst, hsr, hsd, hsh]
        simp [Event.isDeployment, Event.isSave, checkPhase, applyPhase, deployPhase]
    · rw [ht, hst] at hev
      simp only [beforeDeploy, List.cons_append, List.nil_append, List.takeWhile,
        Event.isDeployment, Bool.not_false, List.mem_cons, List.mem_singleton,
        List.not_mem_nil, or_false] at hev
      rcases hev with rfl | rfl | rfl | rfl | rfl
      · simp [Event.failure] at hfail
      · simp [Event.failure, hjoin] at hfail
      · simp [Event.failure] at hfail
      · simp [Event.failure] at hfail
      · simp only [Event.failure, Option.some.injEq] at hfail
        subst hfail
        rw [hr, ht, hrec, hdao, hent, hst, hsd, hsh, saveCert_record, hsr]
        refine ⟨rfl, ?_, ?_, rfl, ?_, ?_⟩
        · simp [Event.isDeployment]
        · simp [Get_Set_other]
        · simp [checkPhase, applyPhase, deployPhase]
        · intro _
          exact ⟨[⟨checkPhase, "开始检查", none, false⟩, ⟨checkPhase, "获取记录成功", none, false⟩,
            ⟨checkPhase, "获取授权信息成功", none, false⟩, ⟨checkPhase, "检查通过", none, true⟩,
            ⟨applyPhase, "开始申请", none, false⟩], rfl⟩
    · rw [hrun1] at hev
      exfalso
      rcases deployStage_cases env cur s1 with
        ⟨err, -, -, ht, -⟩ | ⟨d, err, -, -, -, ht, -⟩ | ⟨d, -, -, -, ht, -⟩ <;>
      · rw [ht, ht1, hst] at hev
        simp only [beforeDeploy, List.cons_append, List.nil_append, List.takeWhile,
          Event.isDeployment, Bool.not_false, Bool.not_true, List.mem_cons, List.mem_singleton,
          List.not_mem_nil, or_false] at hev
        rcases hev with rfl | rfl | rfl | rfl | rfl
        · simp [Event.failure] at hfail
        · simp [Event.failure, hjoin] at hfail
        · simp [Event.failure] at hfail
        · simp [Event.failure] at hfail
        · simp [Event.failure] at hfail

/-- C11, on a run whose certificate save fails. -/
theorem deploy_early_failure_witness :
    Event.saveRecord (deploy envCertUnsaved ⟨[blankRecord]⟩ blankRecord).state.record
        (some (.ext "database is locked")) ∈
      beforeDeploy (deploy envCertUnsaved ⟨[blankRecord]⟩ blankRecord).state.trace ∧
    (deploy envCertUnsaved ⟨[blankRecord]⟩ blankRecord).ret
      = some (.ext "database is locked") ∧
    (deploy envCertUnsaved ⟨[blankRecord]⟩ blankRecord).state.dao = ⟨[blankRecord]⟩ :=
  ⟨by decide,
   (deploy_early_failure envCertUnsaved ⟨[blankRecord]⟩ blankRecord
      (.saveRecord (deploy envCertUnsaved ⟨[blankRecord]⟩ blankRecord).state.record
        (some (.ext "database is locked")))
      (.ext "database is locked") (by decide) rfl).1,
   (deploy_early_failure envCertUnsaved ⟨[blankRecord]⟩ blankRecord
      (.saveRecord (deploy envCertUnsaved ⟨[blankRecord]⟩ blankRecord).state.record
        (some (.ext "database is locked")))
      (.ext "database is locked") (by decide) rfl).2.2.2.1⟩

/-! ## Two runs in a row -/

/-- C12: a first run issues a certificate, `Deploy` succeeds and the run
returns nil, but the save of the deployed flag is refused and its error dropped:
the store keeps the new certificate with `deployed = false`.  A second run on
that store, at the same clock reading and with every collaborator working, does
not skip: it resolves the deployment provider, calls `Deploy`, saves the record,
and its audit trail holds apply and deploy entries and ends with the deploy
entry. -/
theorem deploy_second_run_redeploys :
    Event.apply (some demoCert) none ∈
      (deploy envFlagUnsaved ⟨[blankRecord]⟩ blankRecord).state.trace ∧
    Event.deploy none ∈ (deploy envFlagUnsaved ⟨[blankRecord]⟩ blankRecord).state.trace ∧
    (deploy envFlagUnsaved ⟨[blankRecord]⟩ blankRecord).ret = none ∧
    ((deploy envFlagUnsaved ⟨[blankRecord]⟩ blankRecord).state.dao.row "dom1").map
      (fun r => (r.GetString "certificate", r.GetBool "deployed")) = some ("CERT-2", false) ∧
    (deploy demoEnv (deploy envFlagUnsaved ⟨[blankRecord]⟩ blankRecord).state.dao
        (deploy envFlagUnsaved ⟨[blankRecord]⟩ blankRecord).state.record).ret = none ∧
    ((deploy demoEnv (deploy envFlagUnsaved ⟨[blankRecord]⟩ blankRecord).state.dao
        (deploy envFlagUnsaved ⟨[blankRecord]⟩ blankRecord).state.record).state.trace.filter
      Event.isIssuance).length = 0 ∧
    ((deploy demoEnv (deploy envFlagUnsaved ⟨[blankRecord]⟩ blankRecord).state.dao
        (deploy envFlagUnsaved ⟨[blankRecord]⟩ blankRecord).state.record).state.trace.filter
      Event.isDeployment).length = 2 ∧
    Event.deploy none ∈
      (deploy demoEnv (deploy envFlagUnsaved ⟨[blankRecord]⟩ blankRecord).state.dao
        (deploy envFlagUnsaved ⟨[blankRecord]⟩ blankRecord).state.record).state.trace ∧
    ((deploy demoEnv (deploy envFlagUnsaved ⟨[blankRecord]⟩ blankRecord).state.dao
        (deploy envFlagUnsaved ⟨[blankRecord]⟩ blankRecord).state.record).state.trace.filter
      Event.isSave).length = 1 ∧
    ((deploy demoEnv (deploy envFlagUnsaved ⟨[blankRecord]⟩ blankRecord).state.dao
        (deploy envFlagUnsaved ⟨[blankRecord]⟩ blankRecord).state.record).state.history.entries.filter
      (fun it => it.phase != checkPhase)).length = 5 ∧
    (deploy demoEnv (deploy envFlagUnsaved ⟨[blankRecord]⟩ blankRecord).state.dao
        (deploy envFlagUnsaved ⟨[blankRecord]⟩ blankRecord).state.record).state.history.entries.getLast?
      = some ⟨deployPhase, "部署成功", none, true⟩ := by
  decide

/-! ## Completion flags -/

/-- C13: when `Deploy` succeeds and the save of the deployed flag then fails,
the run still records the deploy entry flagged complete, as the last entry and
without error, although a save made during the deploy phase failed and the
store keeps `deployed = false`. -/
theorem deploy_completes_phase_despite_failed_save :
    (deploy envFlagUnsaved ⟨[issuedRecord (demoNow + tenDays) false]⟩
        (issuedRecord (demoNow + tenDays) false)).state.trace =
      [.findRecordById "domains" "dom1" none,
       .expandRecord (issuedRecord (demoNow + tenDays) false) ["access", "targetAccess"] [],
       .deployerGet (issuedRecord (demoNow + tenDays) false) none,
       .deploy none,
       .saveRecord ((issuedRecord (demoNow + tenDays) false).Set "deployed" (.bool true))
         (some (.ext "database is locked"))] ∧
    (deploy envFlagUnsaved ⟨[issuedRecord (demoNow + tenDays) false]⟩
        (issuedRecord (demoNow + tenDays) false)).state.history.entries.filter
          (HistoryItem.closes deployPhase) = [⟨deployPhase, "部署成功", none, true⟩] ∧
    (deploy envFlagUnsaved ⟨[issuedRecord (demoNow + tenDays) false]⟩
        (issuedRecord (demoNow + tenDays) false)).state.history.entries.getLast?
      = some ⟨deployPhase, "部署成功", none, true⟩ ∧
    ((deploy envFlagUnsaved ⟨[issuedRecord (demoNow + tenDays) false]⟩
        (issuedRecord (demoNow + tenDays) false)).state.dao.row "dom1").map
      (fun r => r.GetBool "deployed") = some false := by
  decide

/-! ## Expansion failures -/

/-- C14: in every run in which `ExpandRecord` reports a non-empty map of
failures `errs`, the run returns one joined error whose sub-errors are, entry by
entry, the failures of `errs`: as many sub-errors as failed relations, each with
a text naming its relation and wrapping that relation's original error; the
same error is recorded in a check-phase audit entry, the only calls of the run
are the load and the expansion, and record and store are untouched. -/
theorem deploy_expand_failure (env : Env) (dao : Dao) (record cur : Record)
    (names : List String) (errs : List (String × Error))
    (hev : Event.expandRecord cur names errs ∈
      (deploy env dao record).state.trace)
    (hne : errs ≠ []) :
    ∃ subs : List Error,
      (deploy env dao record).ret = some (Error.join subs) ∧
      subs.length = errs.length ∧
      subs.map Error.text = errs.map (fun ne => "展开记录失败," ++ ne.1 ++ ": ") ∧
      subs.map Error.cause = errs.map (fun ne => some ne.2) ∧
      (⟨checkPhase, "获取授权信息失败", some (Error.join subs), false⟩ : HistoryItem) ∈
        (deploy env dao record).state.history.entries ∧
      (deploy env dao record).state.trace =
        [.findRecordById "domains" record.Id none,
         .expandRecord cur names errs] ∧
      (∀ x ∈ (deploy env dao record).state.trace,
        x.isIssuance = false ∧ x.isDeployment = false ∧ x.isSave = false) ∧
      (deploy env dao record).state.record = record ∧
      (deploy env dao record).state.dao = dao := by
  have hjoin : ∀ l : List (String × Error), l ≠ [] →
      errorsJoin (l.map (fun ne => Error.wrap ("展开记录失败," ++ ne.1 ++ ": ") ne.2)) =
        some (Error.join (l.map (fun ne => Error.wrap ("展开记录失败," ++ ne.1 ++ ": ") ne.2))) := by
    intro l hl
    cases l with
    | nil => exact absurd rfl hl
    | cons a l => simp [errorsJoin]
  have hmem : ∀ (c1 : Record) (l : List (String × Error)),
      Event.expandRecord cur names errs ∈
        ([.findRecordById "domains" record.Id none,
          .expandRecord c1 ["access", "targetAccess"] l] : List Event) →
      c1 = cur ∧ ["access", "targetAccess"] = names ∧ l = errs := by
    intro c1 l h
    simp only [List.mem_cons, List.mem_singleton, List.not_mem_nil, or_false] at h
    rcases h with h | h
    · cases h
    · injection h with h1 h2 h3
      exact ⟨h1.symm, h2.symm, h3.symm⟩
  rcases deploy_cases env dao record with
    ⟨err, -, -, ht, -⟩ | ⟨c1, -, hx, hr, ht, hrec, hdao, hent⟩ | ⟨c1, -, hx, -, -, ht, -⟩ |
    ⟨c1, s, -, hx, -, hrun, hst, -⟩
  · rw [ht] at hev
    simp at hev
  · rw [ht] at hev
    obtain ⟨h1, hn, h2⟩ := hmem c1 _ hev
    subst h1
    subst hn
    rw [h2] at hr ht
    rw [hjoin errs hne] at hr
    refine ⟨errs.map (fun ne => Error.wrap ("展开记录失败," ++ ne.1 ++ ": ") ne.2), hr, ?_, ?_, ?_,
      ?_, ht, ?_, hrec, hdao⟩
    · simp
    · simp [Error.text, Function.comp_def]
    · simp [Error.cause, Function.comp_def]
    · rw [hent, hr]
      simp
    · rw [ht]
      intro x hx
      simp only [List.mem_cons, List.mem_singleton, List.not_mem_nil, or_false] at hx
      rcases hx with rfl | rfl <;> simp [Event.isIssuance, Event.isDeployment, Event.isSave]
  · rw [ht] at hev
    obtain ⟨-, -, h2⟩ := hmem c1 _ hev
    exact absurd h2.symm hne
  · exfalso
    have hpre : Event.expandRecord cur names errs ∉ s.trace := by
      intro h
      rw [hst] at h
      exact hne (hmem c1 _ h).2.2.symm
    rw [hrun] at hev
    rcases applyStage_cases env c1 (c1.GetString "certificate") (c1.GetDateTime "expiredAt") s
      with ⟨s1, -, hrun1, ht1, -⟩ | ⟨err, -, -, -, ht, -⟩ |
        ⟨a, err, -, -, -, -, ht, -⟩ | ⟨a, c, err, -, -, -, -, -, ht, -⟩ |
        ⟨a, c, s1, -, -, -, -, hrun1, ht1, -⟩
    · rw [hrun1] at hev
      rcases deployStage_cases env c1 s1 with
        ⟨err, -, -, ht, -⟩ | ⟨d, err, -, -, -, ht, -⟩ | ⟨d, -, -, -, ht, -⟩ <;>
      · rw [ht, ht1] at hev
        simp [hpre] at hev
    · rw [ht] at hev
      simp [hpre] at hev
    · rw [ht] at hev
      simp [hpre] at hev
    · rw [ht] at hev
      simp [hpre] at hev
    · rw [hrun1] at hev
      rcases deployStage_cases env c1 s1 with
        ⟨err, -, -, ht, -⟩ | ⟨d, err, -, -, -, ht, -⟩ | ⟨d, -, -, -, ht, -⟩ <;>
      · rw [ht, ht1] at hev
        simp [hpre] at hev

/-- C14, on a run in which both relations fail to expand. -/
theorem deploy_expand_failure_witness :
    ∃ subs : List Error,
      (deploy envExpandFails ⟨[blankRecord]⟩ blankRecord).ret = some (Error.join subs) ∧
      subs.length = 2 ∧
      subs.map Error.cause = [some (.ext "record not found"), some (.ext "record not found")] := by
  obtain ⟨subs, h1, h2, -, h4, -⟩ :=
    deploy_expand_failure envExpandFails ⟨[blankRecord]⟩ blankRecord blankRecord
      ["access", "targetAccess"]
      [("access", .ext "record not found"), ("targetAccess", .ext "record not found")]
      (by decide) (by decide)
  exact ⟨subs, h1, h2, h4⟩

/-! ## The certificate fields move together -/

/-- Records that agree on the certificate fields are uniform together. -/
theorem certUniform_congr (r r1 : Record)
    (h : ∀ k ∈ certFields, r1.GetString k = r.GetString k) (hr : r.certUniform) :
    r1.certUniform := by
  rcases hr with hr | hr
  · exact Or.inl (fun k hk => by rw [h k hk]; exact hr k hk)
  · exact Or.inr (fun k hk => by rw [h k hk]; exact hr k hk)

/-- Writing the deployed flag does not touch the certificate fields. -/
theorem certUniform_set_deployed (r : Record) (v : Value) (hr : r.certUniform) :
    (r.Set "deployed" v).certUniform := by
  refine certUniform_congr r _ ?_ hr
  intro k hk
  refine GetString_Set_other _ _ _ _ ?_
  rintro rfl
  simp [certFields] at hk

/-- The stored form of a uniform record is uniform: the store keeps strings as
they are. -/
theorem certUniform_stored (r : Record) (hr : r.certUniform) : r.stored.certUniform :=
  certUniform_congr r _ (fun k _ => GetString_stored r k) hr

/-- A record that carries a uniform certificate is uniform. -/
theorem certUniform_of_carries (r : Record) (c : Certificate) (h : r.carries c)
    (hc : c.uniform) : r.certUniform := by
  obtain ⟨h1, h2, h3, h4, h5, h6⟩ := h
  rcases hc with ⟨c1, c2, c3, c4, c5, c6⟩ | ⟨c1, c2, c3, c4, c5, c6⟩
  · left
    intro k hk
    simp only [certFields, List.mem_cons, List.mem_singleton, List.not_mem_nil, or_false] at hk
    rcases hk with rfl | rfl | rfl | rfl | rfl | rfl
    · rw [h1, c1]
    · rw [h2, c2]
    · rw [h3, c3]
    · rw [h4, c4]
    · rw [h5, c5]
    · rw [h6, c6]
  · right
    intro k hk
    simp only [certFields, List.mem_cons, List.mem_singleton, List.not_mem_nil, or_false] at hk
    rcases hk with rfl | rfl | rfl | rfl | rfl | rfl
    · rw [h1]; exact c1
    · rw [h2]; exact c2
    · rw [h3]; exact c3
    · rw [h4]; exact c4
    · rw [h5]; exact c5
    · rw [h6]; exact c6

/-- The record `saveCert` leaves carries the certificate it was given. -/
theorem saveCert_carries (now : Time) (fault : Option Error) (s : State) (c : Certificate) :
    (saveCert now fault s c).state.record.carries c := by
  rw [saveCert_record]
  refine ⟨?_, ?_, ?_, ?_, ?_, ?_⟩ <;> simp [GetString_Set_self, GetString_Set_other]

/-- The id of the record `saveCert` leaves. -/
theorem saveCert_Id (now : Time) (fault : Option Error) (s : State) (c : Certificate) :
    (saveCert now fault s c).state.record.Id = s.record.Id := by
  rw [saveCert_record]
  rfl

/-- The row found after a `SaveRecord` of a record with the id looked up: the
stored form of the record when the save succeeds, the former row when it
fails. -/
theorem row_SaveRecord (fault : Option Error) (dao : Dao) (r : Record) (id : String)
    (hid : r.Id = id) :
    (Dao.SaveRecord fault dao r).1.row id
      = if fault = none then some r.stored else dao.row id := by
  cases fault with
  | none =>
    subst hid
    simp [Dao.SaveRecord, row_put]
  | some e => simp [Dao.SaveRecord]

/-- C15, as stated, fails: from a record and a store whose certificate fields
are all empty, a run whose issuance provider returns a certificate without CSR
leaves a persisted record with five fields filled and `csr` empty. -/
theorem deploy_cert_fields_counterexample :
    blankRecord.certUniform ∧
    ((⟨[blankRecord]⟩ : Dao).row "dom1").map (fun r => decide r.certUniform) = some true ∧
    (deploy envNoCsr ⟨[blankRecord]⟩ blankRecord).ret = none ∧
    ((deploy envNoCsr ⟨[blankRecord]⟩ blankRecord).state.dao.row "dom1").map
      (fun r => (r.GetString "certificate", r.GetString "csr")) = some ("CERT-2", "") ∧
    ((deploy envNoCsr ⟨[blankRecord]⟩ blankRecord).state.dao.row "dom1").map
      (fun r => decide r.certUniform) = some false := by
  decide

/-- C15, amended: if before a run the caller's record and the stored record
both have their certificate fields all empty or all non-empty, and every
certificate that `Apply` returns in the run has its six fields all empty or all
non-empty, then whatever the outcome of the external calls the stored record
after the run again has these fields all empty or all non-empty. -/
theorem deploy_preserves_cert_uniform (env : Env) (dao : Dao) (record : Record)
    (hrec : record.certUniform)
    (hstore : ∀ r, dao.row record.Id = some r → r.certUniform)
    (hcert : ∀ c, Event.apply (some c) none ∈ (deploy env dao record).state.trace → c.uniform) :
    ∀ r, (deploy env dao record).state.dao.row record.Id = some r → r.certUniform := by
  have key : ∀ (cur : Record) (s : State), s.record.Id = record.Id → s.record.certUniform →
      (∀ r, s.dao.row record.Id = some r → r.certUniform) →
      ∀ r, (deployStage env cur s).state.dao.row record.Id = some r → r.certUniform := by
    intro cur s hid hsr hsd r hr
    rcases deployStage_cases env cur s with
      ⟨err, -, -, -, -, hdao, -⟩ | ⟨d, err, -, -, -, -, -, hdao, -⟩ | ⟨d, -, -, -, -, -, hdao, -⟩
    · rw [hdao] at hr
      exact hsd r hr
    · rw [hdao, row_SaveRecord _ _ _ _ (by rw [Set_Id, hid])] at hr
      split at hr
      · cases hr
        exact certUniform_stored _ (certUniform_set_deployed _ _ hsr)
      · exact hsd r hr
    · rw [hdao, row_SaveRecord _ _ _ _ (by rw [Set_Id, hid])] at hr
      split at hr
      · cases hr
        exact certUniform_stored _ (certUniform_set_deployed _ _ hsr)
      · exact hsd r hr
  intro r hr
  rcases deploy_cases env dao record with
    ⟨err, -, -, -, -, hdao, -⟩ | ⟨cur, -, -, -, -, -, hdao, -⟩ | ⟨cur, -, -, -, -, -, -, hdao, -⟩ |
    ⟨cur, s, -, -, -, hrun, hst, hsr, hsd, -⟩
  · rw [hdao] at hr
    exact hstore r hr
  · rw [hdao] at hr
    exact hstore r hr
  · rw [hdao] at hr
    exact hstore r hr
  · rw [hrun] at hr hcert
    rcases applyStage_cases env cur (cur.GetString "certificate") (cur.GetDateTime "expiredAt") s
      with ⟨s1, -, hrun1, -, hrec1, hdao1, -⟩ | ⟨err, -, -, -, -, -, hdao, -⟩ |
        ⟨a, err, -, -, -, -, -, -, hdao, -⟩ | ⟨a, c, err, -, -, -, -, -, -, -, hdao, -⟩ |
        ⟨a, c, s1, -, -, -, -, hrun1, ht1, hrec1, hdao1, -⟩
    · rw [hrun1] at hr
      refine key cur s1 (by rw [hrec1, hsr]) (by rw [hrec1, hsr]; exact hrec) ?_ r hr
      rw [hdao1, hsd]
      exact hstore
    · rw [hdao, hsd] at hr
      exact hstore r hr
    · rw [hdao, hsd] at hr
      exact hstore r hr
    · rw [hdao, hsd] at hr
      exact hstore r hr
    · rw [hrun1] at hr hcert
      have hc : c.uniform := by
        apply hcert
        rcases deployStage_cases env cur s1 with
          ⟨err, -, -, ht, -⟩ | ⟨d, err, -, -, -, ht, -⟩ | ⟨d, -, -, -, ht, -⟩ <;>
        · rw [ht, ht1]
          simp
      have hu : (saveCert env.nowSaveCert none s c).state.record.certUniform :=
        certUniform_of_carries _ c (saveCert_carries _ _ _ _) hc
      have hi : (saveCert env.nowSaveCert none s c).state.record.Id = record.Id := by
        rw [saveCert_Id, hsr]
      refine key cur s1 (by rw [hrec1, hi]) (by rw [hrec1]; exact hu) ?_ r hr
      intro r1 hr1
      rw [hdao1] at hr1
      have := row_put s.dao (saveCert env.nowSaveCert none s c).state.record
      rw [hi] at this
      rw [this] at hr1
      cases hr1
      exact certUniform_stored _ hu

/-- C15 amended, on a first issuance with a complete certificate. -/
theorem deploy_preserves_cert_uniform_witness :
    blankRecord.certUniform ∧
    ((deploy demoEnv ⟨[blankRecord]⟩ blankRecord).state.dao.row "dom1").map
      (fun r => r.GetString "csr") = some "CSR-2" ∧
    ∀ r, (deploy demoEnv ⟨[blankRecord]⟩ blankRecord).state.dao.row blankRecord.Id = some r →
      r.certUniform :=
  ⟨by decide, by decide,
   deploy_preserves_cert_uniform demoEnv ⟨[blankRecord]⟩ blankRecord (by decide)
     (fun r hr => by
       have h : r = blankRecord := by
         have h0 : (⟨[blankRecord]⟩ : Dao).row blankRecord.Id = some blankRecord := by decide
         rw [h0] at hr
         exact (Option.some.inj hr).symm
       rw [h]
       decide)
     (fun c hc => by
       have h0 : ∀ ev ∈ (deploy demoEnv ⟨[blankRecord]⟩ blankRecord).state.trace,
           ev.isApply = true → ev = .apply (some demoCert) none := by decide
       have h1 := h0 _ hc rfl
       injection h1 with h2 _
       rw [Option.some.inj h2]
       decide)⟩

/-! ## The audit trail -/

/-- The twelve audit trails a run can leave, each with the value the run
returns. -/
theorem deploy_audit_cases (env : Env) (dao : Dao) (record : Record) :
    (∃ err, (deploy env dao record).state.history.entries =
        [⟨checkPhase, "开始检查", none, false⟩,
         ⟨checkPhase, "获取域名配置失败", some err, false⟩] ∧
      (deploy env dao record).ret = some err) ∨
    (∃ err, (deploy env dao record).state.history.entries =
        [⟨checkPhase, "开始检查", none, false⟩,
         ⟨checkPhase, "获取记录成功", none, false⟩,
         ⟨checkPhase, "获取授权信息失败", some err, false⟩] ∧
      (deploy env dao record).ret = some err) ∨
    ((deploy env dao record).state.history.entries =
        [⟨checkPhase, "开始检查", none, false⟩,
         ⟨checkPhase, "获取记录成功", none, false⟩,
         ⟨checkPhase, "获取授权信息成功", none, false⟩,
         ⟨checkPhase, "证书在有效期内且已部署，跳过", none, true⟩] ∧
      (deploy env dao record).ret = none) ∨
    (∃ err, (deploy env dao record).state.history.entries =
        [⟨checkPhase, "开始检查", none, false⟩,
         ⟨checkPhase, "获取记录成功", none, false⟩,
         ⟨checkPhase, "获取授权信息成功", none, false⟩,
         ⟨checkPhase, "检查通过", none, true⟩,
         ⟨applyPhase, "开始申请", none, false⟩,
         ⟨applyPhase, "获取applicant失败", some err, false⟩] ∧
      (deploy env dao record).ret = some err) ∨
    (∃ err, (deploy env dao record).state.history.entries =
        [⟨checkPhase, "开始检查", none, false⟩,
         ⟨checkPhase, "获取记录成功", none, false⟩,
         ⟨checkPhase, "获取授权信息成功", none, false⟩,
         ⟨checkPhase, "检查通过", none, true⟩,
         ⟨applyPhase, "开始申请", none, false⟩,
         ⟨applyPhase, "申请证书失败", some err, false⟩] ∧
      (deploy env dao record).ret = some err) ∨
    (∃ err, (deploy env dao record).state.history.entries =
        [⟨checkPhase, "开始检查", none, false⟩,
         ⟨checkPhase, "获取记录成功", none, false⟩,
         ⟨checkPhase, "获取授权信息成功", none, false⟩,
         ⟨checkPhase, "检查通过", none, true⟩,
         ⟨applyPhase, "开始申请", none, false⟩,
         ⟨applyPhase, "申请证书成功", none, false⟩,
         ⟨applyPhase, "保存证书失败", some err, false⟩] ∧
      (deploy env dao record).ret = some err) ∨
    (∃ err, (deploy env dao record).state.history.entries =
        [⟨checkPhase, "开始检查", none, false⟩,
         ⟨checkPhase, "获取记录成功", none, false⟩,
         ⟨checkPhase, "获取授权信息成功", none, false⟩,
         ⟨checkPhase, "检查通过", none, true⟩,
         ⟨applyPhase, "开始申请", none, false⟩,
         ⟨applyPhase, "证书在有效期内，跳过", none, false⟩,
         ⟨applyPhase, "保存证书成功", none, true⟩,
         ⟨deployPhase, "开始部署", none, false⟩,
         ⟨deployPhase, "获取deployer失败", some err, false⟩] ∧
      (deploy env dao record).ret = some err) ∨
    (∃ err, (deploy env dao record).state.history.entries =
        [⟨checkPhase, "开始检查", none, false⟩,
         ⟨checkPhase, "获取记录成功", none, false⟩,
         ⟨checkPhase, "获取授权信息成功", none, false⟩,
         ⟨checkPhase, "检查通过", none, true⟩,
         ⟨applyPhase, "开始申请", none, false⟩,
         ⟨applyPhase, "证书在有效期内，跳过", none, false⟩,
         ⟨applyPhase, "保存证书成功", none, true⟩,
         ⟨deployPhase, "开始部署", none, false⟩,
         ⟨deployPhase, "部署失败", some err, false⟩] ∧
      (deploy env dao record).ret = some err) ∨
    ((deploy env dao record).state.history.entries =
        [⟨checkPhase, "开始检查", none, false⟩,
         ⟨checkPhase, "获取记录成功", none, false⟩,
         ⟨checkPhase, "获取授权信息成功", none, false⟩,
         ⟨checkPhase, "检查通过", none, true⟩,
         ⟨applyPhase, "开始申请", none, false⟩,
         ⟨applyPhase, "证书在有效期内，跳过", none, false⟩,
         ⟨applyPhase, "保存证书成功", none, true⟩,
         ⟨deployPhase, "开始部署", none, false⟩,
         ⟨deployPhase, "部署成功", none, true⟩] ∧
      (deploy env dao record).ret = none) ∨
    (∃ err, (deploy env dao record).state.history.entries =
        [⟨checkPhase, "开始检查", none, false⟩,
         ⟨checkPhase, "获取记录成功", none, false⟩,
         ⟨checkPhase, "获取授权信息成功", none, false⟩,
         ⟨checkPhase, "检查通过", none, true⟩,
         ⟨applyPhase, "开始申请", none, false⟩,
         ⟨applyPhase, "申请证书成功", none, false⟩,
         ⟨applyPhase, "保存证书成功", none, true⟩,
         ⟨deployPhase, "开始部署", none, false⟩,
         ⟨deployPhase, "获取deployer失败", some err, false⟩] ∧
      (deploy env dao record).ret = some err) ∨
    (∃ err, (deploy env dao record).state.history.entries =
        [⟨checkPhase, "开始检查", none, false⟩,
         ⟨checkPhase, "获取记录成功", none, false⟩,
         ⟨checkPhase, "获取授权信息成功", none, false⟩,
         ⟨checkPhase, "检查通过", none, true⟩,
         ⟨applyPhase, "开始申请", none, false⟩,
         ⟨applyPhase, "申请证书成功", none, false⟩,
         ⟨applyPhase, "保存证书成功", none, true⟩,
         ⟨deployPhase, "开始部署", none, false⟩,
         ⟨deployPhase, "部署失败", some err, false⟩] ∧
      (deploy env dao record).ret = some err) ∨
    ((deploy env dao record).state.history.entries =
        [⟨checkPhase, "开始检查", none, false⟩,
         ⟨checkPhase, "获取记录成功", none, false⟩,
         ⟨checkPhase, "获取授权信息成功", none, false⟩,
         ⟨checkPhase, "检查通过", none, true⟩,
         ⟨applyPhase, "开始申请", none, false⟩,
         ⟨applyPhase, "申请证书成功", none, false⟩,
         ⟨applyPhase, "保存证书成功", none, true⟩,
         ⟨deployPhase, "开始部署", none, false⟩,
         ⟨deployPhase, "部署成功", none, true⟩] ∧
      (deploy env dao record).ret = none) := by
  have hjoin : ∀ l : List (String × Error), l ≠ [] →
      ∃ e, errorsJoin (l.map (fun ne => Error.wrap ("展开记录失败," ++ ne.1 ++ ": ") ne.2)) =
        some e := by
    intro l hl
    cases l with
    | nil => exact absurd rfl hl
    | cons a l => exact ⟨Error.join _, by simp only [errorsJoin, List.map_cons]; rfl⟩
  rcases deploy_cases env dao record with
    ⟨err, -, hr, -, -, -, hent⟩ | ⟨c1, -, hx, hr, -, -, -, hent⟩ |
    ⟨c1, -, -, -, hr, -, -, -, hent⟩ | ⟨c1, s, -, -, -, hrun, -, -, -, hs⟩
  · exact Or.inl ⟨err, hent, hr⟩
  · obtain ⟨e, he⟩ := hjoin _ hx
    rw [he] at hr
    rw [hr] at hent
    exact Or.inr (Or.inl ⟨e, hent, hr⟩)
  · exact Or.inr (Or.inr (Or.inl ⟨hent, hr⟩))
  · rw [hrun]
    rcases applyStage_cases env c1 (c1.GetString "certificate") (c1.GetDateTime "expiredAt") s
      with ⟨s1, -, hrun1, -, -, -, hs1⟩ | ⟨err, -, -, hr, -, -, -, hent⟩ |
        ⟨a, err, -, -, -, hr, -, -, -, hent⟩ | ⟨a, c, err, -, -, -, -, hr, -, -, -, hent⟩ |
        ⟨a, c, s1, -, -, -, -, hrun1, -, -, -, hs1⟩
    · rw [hrun1]
      rcases deployStage_cases env c1 s1 with
        ⟨err, -, hr, -, -, -, hent⟩ | ⟨d, err, -, -, hr, -, -, -, hent⟩ |
        ⟨d, -, -, hr, -, -, -, hent⟩
      · rw [hs1, hs] at hent
        exact Or.inr (Or.inr (Or.inr (Or.inr (Or.inr (Or.inr (Or.inl ⟨err, hent, hr⟩))))))
      · rw [hs1, hs] at hent
        exact Or.inr (Or.inr (Or.inr (Or.inr (Or.inr (Or.inr (Or.inr (Or.inl
          ⟨err, hent, hr⟩)))))))
      · rw [hs1, hs] at hent
        exact Or.inr (Or.inr (Or.inr (Or.inr (Or.inr (Or.inr (Or.inr (Or.inr (Or.inl
          ⟨hent, hr⟩))))))))
    · rw [hs] at hent
      exact Or.inr (Or.inr (Or.inr (Or.inl ⟨err, hent, hr⟩)))
    · rw [hs] at hent
      exact Or.inr (Or.inr (Or.inr (Or.inr (Or.inl ⟨err, hent, hr⟩))))
    · rw [hs] at hent
      exact Or.inr (Or.inr (Or.inr (Or.inr (Or.inr (Or.inl ⟨err, hent, hr⟩)))))
    · rw [hrun1]
      rcases deployStage_cases env c1 s1 with
        ⟨err, -, hr, -, -, -, hent⟩ | ⟨d, err, -, -, hr, -, -, -, hent⟩ |
        ⟨d, -, -, hr, -, -, -, hent⟩
      · rw [hs1, hs] at hent
        exact Or.inr (Or.inr (Or.inr (Or.inr (Or.inr (Or.inr (Or.inr (Or.inr (Or.inr (Or.inl
          ⟨err, hent, hr⟩)))))))))
      · rw [hs1, hs] at hent
        exact Or.inr (Or.inr (Or.inr (Or.inr (Or.inr (Or.inr (Or.inr (Or.inr (Or.inr (Or.inr
          (Or.inl ⟨err, hent, hr⟩))))))))))
      · rw [hs1, hs] at hent
        exact Or.inr (Or.inr (Or.inr (Or.inr (Or.inr (Or.inr (Or.inr (Or.inr (Or.inr (Or.inr
          (Or.inr ⟨hent, hr⟩))))))))))

/-- C16: the phase tags of the audit entries of every run read check+ apply*
deploy*: the trail is a non-empty block of check entries, then a block of apply
entries, then a block of deploy entries; there are apply entries only when a
check entry is flagged complete, and deploy entries only when an apply entry is
flagged complete. -/
theorem deploy_phases_sequential (env : Env) (dao : Dao) (record : Record) :
    ∃ cs as ds : List HistoryItem,
      (deploy env dao record).state.history.entries = cs ++ as ++ ds ∧
      cs ≠ [] ∧
      (∀ it ∈ cs, it.phase = checkPhase) ∧
      (∀ it ∈ as, it.phase = applyPhase) ∧
      (∀ it ∈ ds, it.phase = deployPhase) ∧
      (as ≠ [] → ∃ it ∈ cs, it.complete = true) ∧
      (ds ≠ [] → ∃ it ∈ as, it.complete = true) := by
  refine ⟨(deploy env dao record).state.history.entries.filter (fun it => it.phase == checkPhase),
    (deploy env dao record).state.history.entries.filter (fun it => it.phase == applyPhase),
    (deploy env dao record).state.history.entries.filter (fun it => it.phase == deployPhase), ?_⟩
  rcases deploy_audit_cases env dao record with
    ⟨err, hent, -⟩ | ⟨err, hent, -⟩ | ⟨hent, -⟩ | ⟨err, hent, -⟩ | ⟨err, hent, -⟩ |
    ⟨err, hent, -⟩ | ⟨err, hent, -⟩ | ⟨err, hent, -⟩ | ⟨hent, -⟩ | ⟨err, hent, -⟩ |
    ⟨err, hent, -⟩ | ⟨hent, -⟩ <;>
  · rw [hent]
    simp [List.filter, checkPhase, applyPhase, deployPhase]

/-- A trail whose entries before the last carry no error, and whose last
entry carries exactly the value returned, reports that value faithfully. -/
theorem audit_faithful (entries init : List HistoryItem) (last : HistoryItem)
    (ret : Option Error) (h : entries = init ++ [last])
    (hinit : ∀ it ∈ init, it.error = none) (hlast : last.error = ret)
    (hc : ret = none → last.complete = true) :
    entries.getLast?.map (fun it => it.error) = some ret ∧
    (ret = none ↔ ∀ it ∈ entries, it.error = none) ∧
    (ret = none → ∃ l, entries.getLast? = some l ∧ l.complete = true) ∧
    (∀ e, ret = some e ↔
      ∃ i l, entries = i ++ [l] ∧ l.error = some e ∧ ∀ it ∈ i, it.error = none) := by
  subst h
  refine ⟨by simp [hlast], ?_, ?_, ?_⟩
  · constructor
    · intro hr it hit
      rcases List.mem_append.mp hit with h1 | h1
      · exact hinit it h1
      · simp only [List.mem_singleton] at h1
        rw [h1, hlast, hr]
    · intro hall
      rw [← hlast]
      exact hall last (by simp)
  · intro hr
    exact ⟨last, by simp, hc hr⟩
  · intro e
    constructor
    · intro hr
      exact ⟨init, last, rfl, by rw [hlast, hr], hinit⟩
    · rintro ⟨i, l, hil, hl, -⟩
      have := congrArg List.getLast? hil
      simp only [List.getLast?_append, List.getLast?_singleton, Option.or,
        Option.some.injEq] at this
      rw [← hlast, this, hl]

/-- C17: in every run the value returned is the error field of the last audit
entry: the run returns nil exactly when no entry carries an error, and then
the last entry is flagged complete; it returns `e` exactly when the last entry
carries `e` and no earlier entry carries an error. -/
theorem deploy_returns_last_audit_error (env : Env) (dao : Dao) (record : Record) :
    (deploy env dao record).state.history.entries.getLast?.map (fun it => it.error)
      = some (deploy env dao record).ret ∧
    ((deploy env dao record).ret = none ↔
      ∀ it ∈ (deploy env dao record).state.history.entries, it.error = none) ∧
    ((deploy env dao record).ret = none →
      ∃ l, (deploy env dao record).state.history.entries.getLast? = some l ∧
        l.complete = true) ∧
    (∀ e, (deploy env dao record).ret = some e ↔
      ∃ i l, (deploy env dao record).state.history.entries = i ++ [l] ∧
        l.error = some e ∧ ∀ it ∈ i, it.error = none) := by
  rcases deploy_audit_cases env dao record with
    ⟨err, hent, hr⟩ | ⟨err, hent, hr⟩ | ⟨hent, hr⟩ | ⟨err, hent, hr⟩ | ⟨err, hent, hr⟩ |
    ⟨err, hent, hr⟩ | ⟨err, hent, hr⟩ | ⟨err, hent, hr⟩ | ⟨hent, hr⟩ | ⟨err, hent, hr⟩ |
    ⟨err, hent, hr⟩ | ⟨hent, hr⟩ <;>
  · refine audit_faithful _ (deploy env dao record).state.history.entries.dropLast
      (((deploy env dao record).state.history.entries.getLast?).getD ⟨"", "", none, false⟩)
      _ ?_ ?_ ?_ ?_ <;>
    · simp [hent, hr]

/-! ## The record that is written back -/

/-- C18: a run that skips issuance on the strength of the stored record, but
is called with a record that does not hold the stored certificate, persists the
caller's record when it writes the deployed flag: the stored certificate and
expiry are replaced by the caller's (here empty) ones. -/
theorem deploy_flag_save_overwrites_stored_cert :
    Dao.FindRecordById demoEnv.findFault ⟨[issuedRecord (demoNow + tenDays) false]⟩ "domains"
        blankRecord.Id = .ok (issuedRecord (demoNow + tenDays) false) ∧
    (deploy demoEnv ⟨[issuedRecord (demoNow + tenDays) false]⟩
        blankRecord).state.trace.filter Event.isIssuance = [] ∧
    (deploy demoEnv ⟨[issuedRecord (demoNow + tenDays) false]⟩
        blankRecord).state.trace.filter Event.isSave =
      [.saveRecord (blankRecord.Set "deployed" (.bool true)) none] ∧
    ((⟨[issuedRecord (demoNow + tenDays) false]⟩ : Dao).row "dom1").map
      (fun r => (r.GetString "certificate", r.GetDateTime "expiredAt"))
      = some ("CERT-1", demoNow + tenDays) ∧
    ((deploy demoEnv ⟨[issuedRecord (demoNow + tenDays) false]⟩
        blankRecord).state.dao.row "dom1").map
      (fun r => (r.GetString "certificate", r.GetDateTime "expiredAt"))
      = some ("", time.zero) := by
  decide

end Certimate
